import Mathlib

/-!
Verification development for the bird card game engine (birdgame.py).

The data model and the operations are shallowly embedded from the source:
pure Python methods become Lean functions, in-place mutation becomes explicit
state passing on the `BirdGame` structure with players addressed by index
(which models Python object aliasing, including the self-ask case), and the
random shuffle is modelled by parameterising `BirdGame.init` over the
post-shuffle card order.
-/

namespace Birdgame

/-- Embeds `Card`: a bird type together with a suit; equality is structural. -/
structure Card where
  bird_type : String
  suit : String
deriving DecidableEq, Repr

/-- Embeds `Deck`: an ordered list of cards, drawn from the back. -/
structure Deck where
  cards : List Card
deriving DecidableEq, Repr

/-- Embeds `Deck.BIRD_TYPES`. -/
def Deck.BIRD_TYPES : List String :=
  ["Robin", "Eagle", "Sparrow", "Owl", "Hawk",
   "Cardinal", "Bluejay", "Crow", "Parrot", "Finch"]

/-- Embeds `Deck.SUITS`. -/
def Deck.SUITS : List String := ["Spring", "Summer", "Fall", "Winter"]

/-- Embeds `Deck.__init__` / `Deck._create_deck`: one card per
bird-type/suit pair, appended in the nested-loop order. -/
def Deck.create : Deck :=
  ⟨Deck.BIRD_TYPES.flatMap (fun b => Deck.SUITS.map (fun s => ⟨b, s⟩))⟩

/-- Embeds `Deck.draw`: `self.cards.pop()` removes and returns the last card;
on an empty deck it returns no card and leaves the deck alone. -/
def Deck.draw (d : Deck) : Option Card × Deck :=
  match d.cards.getLast? with
  | some c => (some c, ⟨d.cards.dropLast⟩)
  | none => (none, d)

/-- Embeds `Deck.is_empty`. -/
def Deck.is_empty (d : Deck) : Bool := d.cards.length == 0

/-- Embeds `Deck.cards_remaining`. -/
def Deck.cards_remaining (d : Deck) : Nat := d.cards.length

/-- Embeds `Player`: a name, a hand (ordered list of cards) and the list of
completed set names. -/
structure Player where
  name : String
  hand : List Card
  sets : List String
deriving DecidableEq, Repr

instance : Inhabited Player := ⟨⟨"", [], []⟩⟩

/-- Embeds `Player.add_card`: appends to the hand. -/
def Player.add_card (p : Player) (c : Card) : Player :=
  { p with hand := p.hand ++ [c] }

/-- Embeds `Player.remove_card`: removes the first structurally equal card,
reporting whether a removal happened. -/
def Player.remove_card (p : Player) (c : Card) : Bool × Player :=
  if c ∈ p.hand then (true, { p with hand := p.hand.erase c }) else (false, p)

/-- Embeds `Player.has_bird`. -/
def Player.has_bird (p : Player) (bt : String) : Bool :=
  p.hand.any (fun c => c.bird_type == bt)

/-- Embeds `Player.get_cards_of_type`. -/
def Player.get_cards_of_type (p : Player) (bt : String) : List Card :=
  p.hand.filter (fun c => c.bird_type == bt)

/-- Embeds `Player.remove_cards_of_type`: collects the matching cards, then
removes each of them (first-occurrence removal, as `list.remove`) from the
hand, returning the collected cards. -/
def Player.remove_cards_of_type (p : Player) (bt : String) : List Card × Player :=
  let cards := p.get_cards_of_type bt
  (cards, { p with hand := cards.foldl (fun h c => h.erase c) p.hand })

/-- Number of cards of a given bird type in a hand (the per-bird entry of the
`bird_counts` dictionary built by `Player.check_for_sets`). -/
def countBird (hand : List Card) (bt : String) : Nat :=
  (hand.filter (fun c => c.bird_type == bt)).length

/-- First occurrences of each element, in order: the key order of a Python
dict built by inserting the hand's bird types left to right. -/
def firstUniques : List String → List String
  | [] => []
  | x :: xs => x :: firstUniques (xs.filter (fun y => !(y == x)))
termination_by l => l.length
decreasing_by
  simp only [List.length_cons]
  exact Nat.lt_succ_of_le (List.length_filter_le _ xs)

/-- Loop body of `Player.check_for_sets`: for one bird type, if the original
hand held exactly 4 of it and it is not yet among the player's sets, record
the set and extract the 4 cards. -/
def csBody (p : Player) (acc : List String × Player) (bt : String) :
    List String × Player :=
  if countBird p.hand bt = 4 ∧ ¬ bt ∈ acc.2.sets then
    (acc.1 ++ [bt], { (acc.2.remove_cards_of_type bt).2 with sets := acc.2.sets ++ [bt] })
  else acc

/-- Embeds `Player.check_for_sets`: counts cards per bird type of the current
hand, then for every type with exactly 4 cards not already completed, appends
it to `sets`, removes its cards and reports it. -/
def Player.check_for_sets (p : Player) : List String × Player :=
  (firstUniques (p.hand.map (fun c => c.bird_type))).foldl (csBody p) ([], p)

/-- Embeds `Player.get_available_birds` (distinct bird types of the hand). -/
def Player.get_available_birds (p : Player) : List String :=
  firstUniques (p.hand.map (fun c => c.bird_type))

/-- Embeds `Player.score`. -/
def Player.score (p : Player) : Nat := p.sets.length

/-- Embeds `BirdGame`: deck, players in seating order, current player index
and the game-over flag. -/
structure BirdGame where
  deck : Deck
  players : List Player
  current_player_idx : Nat
  game_over : Bool
deriving DecidableEq, Repr

/-- One round of the initial deal: each player in order draws one card from
the deck (skipping silently when the deck runs out), as the inner loop of
`BirdGame.__init__`. -/
def dealRound : Deck → List Player → Deck × List Player
  | d, [] => (d, [])
  | d, p :: ps =>
      let (c?, d1) := d.draw
      let p1 := match c? with | some c => p.add_card c | none => p
      let (d2, ps1) := dealRound d1 ps
      (d2, p1 :: ps1)

/-- The outer deal loop of `BirdGame.__init__`: `n` rounds of `dealRound`. -/
def dealRounds : Nat → Deck → List Player → Deck × List Player
  | 0, d, ps => (d, ps)
  | n + 1, d, ps =>
      let (d1, ps1) := dealRound d ps
      dealRounds n d1 ps1

/-- Embeds `BirdGame.__init__`. The deck is created and shuffled; `shuffled`
is the card order produced by the shuffle. Hands are dealt round-robin
(7 cards each for exactly 2 players, else 5), then every player is checked
for initial sets. No validation of `player_names` is performed. -/
def BirdGame.init (player_names : List String) (shuffled : List Card) : BirdGame :=
  let players0 := player_names.map (fun n => Player.mk n [] [])
  let cards_per_player := if players0.length = 2 then 7 else 5
  let dealt := dealRounds cards_per_player ⟨shuffled⟩ players0
  { deck := dealt.1,
    players := dealt.2.map (fun p => (p.check_for_sets).2),
    current_player_idx := 0,
    game_over := false }

/-- Embeds `BirdGame.get_current_player`. -/
def BirdGame.get_current_player (g : BirdGame) : Player :=
  g.players.getD g.current_player_idx default

/-- Embeds `BirdGame.next_turn`. -/
def BirdGame.next_turn (g : BirdGame) : BirdGame :=
  { g with current_player_idx := (g.current_player_idx + 1) % g.players.length }

/-- Embeds `BirdGame.ask_for_cards`, with the asker and the target given by
their index in `players` (so that `i = j` models passing the same `Player`
object twice). If the asker holds no card of the type, returns 0 untouched;
otherwise all the target's matching cards are removed and, when there are
any, appended one by one to the asker's hand. -/
def BirdGame.ask_for_cards (g : BirdGame) (i j : Nat) (bt : String) :
    Nat × BirdGame :=
  let asker := g.players.getD i default
  if ¬ asker.has_bird bt then (0, g)
  else
    let target := g.players.getD j default
    let rem := target.remove_cards_of_type bt
    let players1 := g.players.set j rem.2
    if rem.1.isEmpty then (0, { g with players := players1 })
    else
      let asker1 := players1.getD i default
      let asker2 := rem.1.foldl Player.add_card asker1
      (rem.1.length, { g with players := players1.set i asker2 })

/-- Embeds `BirdGame.draw_card` for the player at index `i`: draws from the
deck and, when a card came out, appends it to that player's hand. -/
def BirdGame.draw_card (g : BirdGame) (i : Nat) : Option Card × BirdGame :=
  let drawn := g.deck.draw
  match drawn.1 with
  | some c =>
      (some c, { g with deck := drawn.2,
                        players := g.players.set i
                          ((g.players.getD i default).add_card c) })
  | none => (none, { g with deck := drawn.2 })

/-- Embeds `BirdGame.check_game_over`: when the deck is empty and some player
has an empty hand, the `game_over` flag is set and `true` is returned;
otherwise `false` is returned and the state is untouched. -/
def BirdGame.check_game_over (g : BirdGame) : Bool × BirdGame :=
  if g.deck.is_empty && g.players.any (fun p => p.hand.length == 0) then
    (true, { g with game_over := true })
  else (false, g)

/-- Embeds `BirdGame.get_winner`: `None` before game over; otherwise the
unique player whose score equals the maximum, or `None` on a tie. -/
def BirdGame.get_winner (g : BirdGame) : Option Player :=
  if g.game_over = false then none
  else
    let max_score := (g.players.map Player.score).foldl Nat.max 0
    let winners := g.players.filter (fun p => p.score == max_score)
    if winners.length = 1 then winners.head? else none

/-- Lifts `Player.check_for_sets` to the game state, mutating the player at
index `i` in place, as the calls `current_player.check_for_sets()` and
`target_player.check_for_sets()` in the `play_game` loop do. -/
def BirdGame.run_check_for_sets (g : BirdGame) (i : Nat) :
    List String × BirdGame :=
  let res := (g.players.getD i default).check_for_sets
  (res.1, { g with players := g.players.set i res.2 })

/-- One full ask turn of the `play_game` loop: the current player asks player
`j` for `bt`; on a miss they draw a compensating card; then both the current
player and the target are checked for new sets; finally the turn advances. -/
def BirdGame.turnAsk (g : BirdGame) (j : Nat) (bt : String) : BirdGame :=
  let cur := g.current_player_idx
  let step := g.ask_for_cards cur j bt
  let g2 := if step.1 = 0 then (step.2.draw_card cur).2 else step.2
  let g3 := (g2.run_check_for_sets cur).2
  let g4 := (g3.run_check_for_sets j).2
  g4.next_turn

/-- Game states reachable through the engine's protocol: an initial game
built on some shuffle of the standard deck, followed by turns of the
`play_game` loop (empty-hand skip, or a full ask turn against another
player for a bird type the current player holds, or the loop-head
game-over check). -/
inductive Reachable : BirdGame → Prop
  | start : ∀ names shuffled, shuffled.Perm Deck.create.cards →
      Reachable (BirdGame.init names shuffled)
  | skip : ∀ g, Reachable g →
      g.get_current_player.hand = [] → Reachable g.next_turn
  | turn : ∀ g j bt, Reachable g → j < g.players.length →
      j ≠ g.current_player_idx →
      g.get_current_player.has_bird bt = true →
      Reachable (g.turnAsk j bt)
  | overCheck : ∀ g, Reachable g → Reachable (g.check_game_over).2

/-- Weight of a hand under a per-bird-type weight function. -/
def wHand (w : String → Nat) (l : List Card) : Nat :=
  (l.map (fun c => w c.bird_type)).sum

/-- Weight of a completed-sets list: each completed set stands for the 4
extracted cards of its bird type. -/
def wSets (w : String → Nat) (s : List String) : Nat :=
  (s.map (fun x => 4 * w x)).sum

/-- Weight of a player: hand weight plus the weight of the extracted sets. -/
def wPlayer (w : String → Nat) (p : Player) : Nat :=
  wHand w p.hand + wSets w p.sets

/-- Weight of a whole game state: deck plus all players. -/
def wGame (w : String → Nat) (g : BirdGame) : Nat :=
  wHand w g.deck.cards + (g.players.map (wPlayer w)).sum

/-- Total number of cards of one bird type across the deck, the hands and
the completed sets of a game state. -/
def totalBird (g : BirdGame) (bt : String) : Nat :=
  wGame (fun s => if s = bt then 1 else 0) g

/-- The card-conservation measure: cards in the deck plus, per player, cards
in hand plus 4 per completed set. -/
def BirdGame.cardMeasure (g : BirdGame) : Nat :=
  g.deck.cards_remaining
    + (g.players.map (fun p => p.hand.length + 4 * p.sets.length)).sum

end Birdgame

namespace Birdgame

section ListHelpers

variable {α : Type}

theorem set_getD_self (l : List α) (i : Nat) (d : α) : l.set i (l.getD i d) = l := by
  induction l generalizing i with
  | nil => simp
  | cons x xs ih =>
    cases i with
    | zero => simp
    | succ n => simpa using ih n

theorem getD_set_ne (l : List α) {i j : Nat} (x : α) (d : α) (h : i ≠ j) :
    (l.set j x).getD i d = l.getD i d := by
  induction l generalizing i j with
  | nil => simp
  | cons y ys ih =>
    cases j with
    | zero =>
      cases i with
      | zero => exact absurd rfl h
      | succ n => simp
    | succ m =>
      cases i with
      | zero => simp
      | succ n => simpa using ih (fun hh => h (by omega))

theorem getD_set_self (l : List α) {j : Nat} (x : α) (d : α) (h : j < l.length) :
    (l.set j x).getD j d = x := by
  induction l generalizing j with
  | nil => simp at h
  | cons y ys ih =>
    cases j with
    | zero => simp
    | succ m => simpa using ih (by simpa using h)

theorem getD_eq_default {l : List α} {i : Nat} (d : α) (h : l.length ≤ i) :
    l.getD i d = d := by
  induction l generalizing i with
  | nil => simp
  | cons y ys ih =>
    cases i with
    | zero => simp at h
    | succ n => simpa using ih (by simpa using h)

theorem sum_map_set (l : List α) (f : α → Nat) {j : Nat} (x : α) (d : α)
    (h : j < l.length) :
    ((l.set j x).map f).sum + f (l.getD j d) = (l.map f).sum + f x := by
  induction l generalizing j with
  | nil => simp at h
  | cons y ys ih =>
    cases j with
    | zero =>
      simp only [List.set_cons_zero, List.getD_cons_zero, List.map_cons, List.sum_cons]
      omega
    | succ m =>
      have hm : m < ys.length := by simpa using h
      have := ih hm
      simp only [List.set_cons_succ, List.getD_cons_succ, List.map_cons, List.sum_cons]
      omega

theorem sum_map_getD_le (l : List α) (f : α → Nat) {i : Nat} (d : α)
    (h : i < l.length) : f (l.getD i d) ≤ (l.map f).sum := by
  induction l generalizing i with
  | nil => simp at h
  | cons y ys ih =>
    cases i with
    | zero =>
      simp only [List.getD_cons_zero, List.map_cons, List.sum_cons]
      omega
    | succ n =>
      have := ih (by simpa using h)
      simp only [List.getD_cons_succ, List.map_cons, List.sum_cons]
      omega

theorem sum_map_getD_two_le (l : List α) (f : α → Nat) {i j : Nat} (d : α)
    (hij : i ≠ j) (hi : i < l.length) (hj : j < l.length) :
    f (l.getD i d) + f (l.getD j d) ≤ (l.map f).sum := by
  induction l generalizing i j with
  | nil => simp at hi
  | cons y ys ih =>
    cases i with
    | zero =>
      cases j with
      | zero => exact absurd rfl hij
      | succ m =>
        have := sum_map_getD_le ys f d (by simpa using hj)
        simp only [List.getD_cons_zero, List.getD_cons_succ, List.map_cons, List.sum_cons]
        omega
    | succ n =>
      cases j with
      | zero =>
        have := sum_map_getD_le ys f d (by simpa using hi)
        simp only [List.getD_cons_zero, List.getD_cons_succ, List.map_cons, List.sum_cons]
        omega
      | succ m =>
        have := @ih n m (fun hh => hij (by omega)) (by simpa using hi)
          (by simpa using hj)
        simp only [List.getD_cons_succ, List.map_cons, List.sum_cons]
        omega

theorem length_filter_add (l : List α) (q : α → Bool) :
    (l.filter q).length + (l.filter (fun a => !(q a))).length = l.length := by
  induction l with
  | nil => simp
  | cons x xs ih =>
    by_cases hx : q x
    · simp [List.filter, hx]; omega
    · simp only [Bool.not_eq_true] at hx
      simp [List.filter, hx]; omega

theorem sum_map_filter_split (l : List α) (f : α → Nat) (q : α → Bool) :
    ((l.filter q).map f).sum + ((l.filter (fun a => !(q a))).map f).sum
      = (l.map f).sum := by
  induction l with
  | nil => simp
  | cons x xs ih =>
    by_cases hx : q x
    · simp [List.filter, hx]; omega
    · simp only [Bool.not_eq_true] at hx
      simp [List.filter, hx]; omega

theorem length_filter_filter_split (l : List α) (q r : α → Bool) :
    ((l.filter q).filter r).length + ((l.filter (fun a => !(q a))).filter r).length
      = (l.filter r).length := by
  induction l with
  | nil => simp
  | cons x xs ih =>
    cases hx : q x <;> cases hr : r x <;>
      simp only [List.filter_cons, hx, hr, Bool.not_true, Bool.not_false, if_true,
        if_false, Bool.false_eq_true, Bool.true_eq_false, List.length_cons,
        ite_true, ite_false, reduceIte] <;>
      omega

theorem sum_map_const_mul (l : List α) (f : α → Nat) (k : Nat)
    (h : ∀ x ∈ l, f x = k) : (l.map f).sum = l.length * k := by
  induction l with
  | nil => simp
  | cons x xs ih =>
    have hx := h x (by simp)
    simp only [List.map_cons, List.sum_cons, List.length_cons, hx,
      ih (fun y hy => h y (by simp [hy]))]
    ring

end ListHelpers

end Birdgame

namespace Birdgame

section EraseFold

variable {α : Type} [DecidableEq α]

theorem foldl_erase_cons_of_not (q : α → Bool) (l' : List α) (c : α) (t : List α)
    (hall : ∀ x ∈ l', q x = true) (hc : q c = false) :
    l'.foldl (fun h x => h.erase x) (c :: t)
      = c :: l'.foldl (fun h x => h.erase x) t := by
  induction l' generalizing t with
  | nil => rfl
  | cons a l ih =>
    have ha : q a = true := hall a (by simp)
    have hne : c ≠ a := by
      intro hca
      rw [hca, ha] at hc
      simp at hc
    have hstep : (c :: t).erase a = c :: t.erase a := by
      rw [List.erase_cons_tail]
      simp [hne]
    simp only [List.foldl_cons, hstep]
    exact ih _ (fun x hx => hall x (by simp [hx]))

theorem foldl_erase_filter (q : α → Bool) (l : List α) :
    (l.filter q).foldl (fun h x => h.erase x) l = l.filter (fun a => !(q a)) := by
  induction l with
  | nil => rfl
  | cons c t ih =>
    cases hc : q c with
    | true =>
      have h1 : (c :: t).filter q = c :: t.filter q := by simp [List.filter_cons, hc]
      have h2 : (c :: t).erase c = t := List.erase_cons_head c t
      have h3 : (c :: t).filter (fun a => !(q a)) = t.filter (fun a => !(q a)) := by
        simp [List.filter_cons, hc]
      rw [h1, h3, List.foldl_cons, h2, ih]
    | false =>
      have h1 : (c :: t).filter q = t.filter q := by simp [List.filter_cons, hc]
      have h3 : (c :: t).filter (fun a => !(q a)) = c :: t.filter (fun a => !(q a)) := by
        simp [List.filter_cons, hc]
      rw [h1, h3, foldl_erase_cons_of_not q (t.filter q) c t
        (fun x hx => (List.mem_filter.mp hx).2) hc, ih]

end EraseFold

theorem remove_cards_of_type_fst (p : Player) (bt : String) :
    (p.remove_cards_of_type bt).1 = p.hand.filter (fun c => c.bird_type == bt) := rfl

theorem remove_cards_of_type_hand (p : Player) (bt : String) :
    (p.remove_cards_of_type bt).2.hand
      = p.hand.filter (fun c => !(c.bird_type == bt)) := by
  show (p.hand.filter (fun c => c.bird_type == bt)).foldl (fun h c => h.erase c) p.hand
      = p.hand.filter (fun c => !(c.bird_type == bt))
  exact foldl_erase_filter _ p.hand

theorem remove_cards_of_type_sets (p : Player) (bt : String) :
    (p.remove_cards_of_type bt).2.sets = p.sets := rfl

theorem remove_cards_of_type_name (p : Player) (bt : String) :
    (p.remove_cards_of_type bt).2.name = p.name := rfl

theorem foldl_add_card (cs : List Card) (p : Player) :
    cs.foldl Player.add_card p = { p with hand := p.hand ++ cs } := by
  induction cs generalizing p with
  | nil => simp
  | cons c t ih => simp [Player.add_card, ih]

theorem countBird_append (l1 l2 : List Card) (bt : String) :
    countBird (l1 ++ l2) bt = countBird l1 bt + countBird l2 bt := by
  simp [countBird]

theorem countBird_le_length (l : List Card) (bt : String) :
    countBird l bt ≤ l.length :=
  List.length_filter_le _ l

theorem countBird_filter_not_self (l : List Card) (bt : String) :
    countBird (l.filter (fun c => !(c.bird_type == bt))) bt = 0 := by
  simp only [countBird, List.length_eq_zero, List.filter_eq_nil_iff]
  intro c hc
  have := (List.mem_filter.mp hc).2
  simp only [Bool.not_eq_true'] at this
  simp [this]

theorem countBird_split (l : List Card) (q : Card → Bool) (bt : String) :
    countBird (l.filter q) bt + countBird (l.filter (fun c => !(q c))) bt
      = countBird l bt :=
  length_filter_filter_split l q _

theorem countBird_filter_pos_ne (l : List Card) {bt bt' : String} (h : bt' ≠ bt) :
    countBird (l.filter (fun c => c.bird_type == bt)) bt' = 0 := by
  simp only [countBird, List.length_eq_zero, List.filter_eq_nil_iff]
  intro c hc
  have h3 : c.bird_type = bt := by simpa using (List.mem_filter.mp hc).2
  simp only [h3, beq_iff_eq]
  exact fun hh => h hh.symm

theorem countBird_filter_not_ne (l : List Card) {bt bt' : String} (h : bt' ≠ bt) :
    countBird (l.filter (fun c => !(c.bird_type == bt))) bt' = countBird l bt' := by
  have h1 := countBird_split l (fun c => c.bird_type == bt) bt'
  have h0 := countBird_filter_pos_ne l h
  omega

theorem has_bird_false_iff (p : Player) (bt : String) :
    p.has_bird bt = false ↔ countBird p.hand bt = 0 := by
  simp only [Player.has_bird, countBird, List.any_eq_false, List.length_eq_zero,
    List.filter_eq_nil_iff]

theorem has_bird_true_iff (p : Player) (bt : String) :
    p.has_bird bt = true ↔ 0 < countBird p.hand bt := by
  constructor
  · intro h
    rcases Nat.eq_zero_or_pos (countBird p.hand bt) with h0 | h0
    · rw [← has_bird_false_iff] at h0
      rw [h] at h0
      cases h0
    · exact h0
  · intro h
    cases hb : p.has_bird bt
    · rw [has_bird_false_iff] at hb
      omega
    · rfl

theorem countBird_pos_iff_mem (l : List Card) (bt : String) :
    0 < countBird l bt ↔ bt ∈ l.map (fun c => c.bird_type) := by
  constructor
  · intro h
    have hne : l.filter (fun c => c.bird_type == bt) ≠ [] := by
      intro hnil
      simp only [countBird, hnil, List.length_nil] at h
      omega
    rcases List.exists_mem_of_ne_nil _ hne with ⟨c, hc⟩
    have hcm := List.mem_filter.mp hc
    have h3 : c.bird_type = bt := by simpa using hcm.2
    exact List.mem_map.mpr ⟨c, hcm.1, h3⟩
  · intro h
    rcases List.mem_map.mp h with ⟨c, hcm, hcb⟩
    have hmem : c ∈ l.filter (fun c => c.bird_type == bt) :=
      List.mem_filter.mpr ⟨hcm, by simp [hcb]⟩
    have hlen := List.length_pos.mpr (List.ne_nil_of_mem hmem)
    simpa [countBird] using hlen

theorem default_player_hand : (default : Player).hand = [] := rfl

theorem default_player_sets : (default : Player).sets = [] := rfl

theorem has_bird_getD_lt (l : List Player) (i : Nat) (bt : String)
    (h : (l.getD i default).has_bird bt = true) : i < l.length := by
  by_contra hlt
  push_neg at hlt
  rw [getD_eq_default _ hlt] at h
  simp [Player.has_bird, default_player_hand] at h

theorem firstUniques_mem (l : List String) (x : String) :
    x ∈ firstUniques l ↔ x ∈ l := by
  induction l using firstUniques.induct with
  | case1 => simp [firstUniques]
  | case2 y ys ih =>
    rw [firstUniques]
    by_cases hxy : x = y
    · simp [hxy]
    · simp only [List.mem_cons, hxy, false_or, ih, List.mem_filter]
      constructor
      · intro h; exact h.1
      · intro h
        refine ⟨h, ?_⟩
        simp [hxy]

theorem firstUniques_nodup (l : List String) : (firstUniques l).Nodup := by
  induction l using firstUniques.induct with
  | case1 => simp [firstUniques]
  | case2 y ys ih =>
    rw [firstUniques]
    refine List.nodup_cons.mpr ⟨?_, ih⟩
    rw [firstUniques_mem]
    intro hy
    have := (List.mem_filter.mp hy).2
    simp at this

end Birdgame

namespace Birdgame

theorem wHand_nil (w : String → Nat) : wHand w [] = 0 := rfl

theorem wHand_cons (w : String → Nat) (c : Card) (t : List Card) :
    wHand w (c :: t) = w c.bird_type + wHand w t := by
  simp [wHand]

theorem wHand_append (w : String → Nat) (l1 l2 : List Card) :
    wHand w (l1 ++ l2) = wHand w l1 + wHand w l2 := by
  simp [wHand]

theorem wHand_indicator (l : List Card) (bt : String) :
    wHand (fun s => if s = bt then 1 else 0) l = countBird l bt := by
  induction l with
  | nil => rfl
  | cons c t ih =>
    rw [wHand_cons, ih]
    show (if c.bird_type = bt then 1 else 0) + countBird t bt = countBird (c :: t) bt
    by_cases hc : c.bird_type = bt
    · have hcb : (c.bird_type == bt) = true := by simp [hc]
      unfold countBird
      rw [List.filter_cons, if_pos hcb, List.length_cons, if_pos hc]
      omega
    · have hcb : ¬ ((c.bird_type == bt) = true) := by simp [hc]
      unfold countBird
      rw [List.filter_cons, if_neg hcb, if_neg hc]
      omega

theorem wHand_one (l : List Card) : wHand (fun _ => 1) l = l.length := by
  induction l with
  | nil => rfl
  | cons c t ih => rw [wHand_cons, ih, List.length_cons]; omega

theorem wSets_nil (w : String → Nat) : wSets w [] = 0 := rfl

theorem wSets_append (w : String → Nat) (s1 s2 : List String) :
    wSets w (s1 ++ s2) = wSets w s1 + wSets w s2 := by
  simp [wSets]

theorem wSets_singleton (w : String → Nat) (x : String) :
    wSets w [x] = 4 * w x := by
  simp [wSets]

theorem wSets_indicator (s : List String) (bt : String) :
    wSets (fun x => if x = bt then 1 else 0) s = 4 * s.count bt := by
  induction s with
  | nil => rfl
  | cons x t ih =>
    by_cases hx : x = bt
    · simp only [wSets, List.map_cons, List.sum_cons, if_pos hx] at ih ⊢
      rw [List.count_cons]
      simp only [hx, beq_self_eq_true, if_true]
      omega
    · have hxb : (x == bt) = false := by simp [hx]
      simp only [wSets, List.map_cons, List.sum_cons, if_neg hx] at ih ⊢
      rw [List.count_cons]
      simp only [hxb, Bool.false_eq_true, if_false]
      omega

theorem wSets_one (s : List String) : wSets (fun _ => 1) s = 4 * s.length := by
  induction s with
  | nil => rfl
  | cons x t ih =>
    simp only [wSets, List.map_cons, List.sum_cons, List.length_cons] at ih ⊢
    omega

theorem csBody_fired (p q : Player) (s : List String) (bt : String)
    (h : countBird p.hand bt = 4 ∧ ¬ bt ∈ q.sets) :
    (csBody p (s, q) bt).1 = s ++ [bt] ∧
    (csBody p (s, q) bt).2.hand = q.hand.filter (fun c => !(c.bird_type == bt)) ∧
    (csBody p (s, q) bt).2.sets = q.sets ++ [bt] ∧
    (csBody p (s, q) bt).2.name = q.name := by
  unfold csBody
  rw [if_pos h]
  exact ⟨rfl, remove_cards_of_type_hand q bt, rfl, rfl⟩

theorem csBody_skip (p : Player) (acc : List String × Player) (bt : String)
    (h : ¬ (countBird p.hand bt = 4 ∧ ¬ bt ∈ acc.2.sets)) :
    csBody p acc bt = acc := by
  unfold csBody
  rw [if_neg h]

theorem cs_fold_main (p : Player) (l : List String) :
    ∀ (s : List String) (q : Player), l.Nodup →
    (∀ x ∈ l, countBird q.hand x = countBird p.hand x) →
    (∀ bt, countBird (l.foldl (csBody p) (s, q)).2.hand bt
        ≤ countBird q.hand bt) ∧
    (∀ bt, countBird (l.foldl (csBody p) (s, q)).2.hand bt = countBird q.hand bt ∨
        countBird (l.foldl (csBody p) (s, q)).2.hand bt = 0) ∧
    (∀ bt, bt ∈ l → countBird p.hand bt = 4 → ¬ bt ∈ q.sets →
        countBird (l.foldl (csBody p) (s, q)).2.hand bt = 0) ∧
    (∀ bt, bt ∈ q.sets → bt ∈ (l.foldl (csBody p) (s, q)).2.sets) ∧
    (∀ w : String → Nat,
        wPlayer w (l.foldl (csBody p) (s, q)).2 = wPlayer w q) ∧
    (l.foldl (csBody p) (s, q)).2.name = q.name := by
  induction l with
  | nil =>
    intro s q _ _
    refine ⟨fun bt => le_refl _, fun bt => Or.inl rfl, ?_, fun bt h => h,
      fun w => rfl, rfl⟩
    intro bt hbt
    simp at hbt
  | cons x xs ih =>
    intro s q hnd hH
    have hxnotin : ¬ x ∈ xs := (List.nodup_cons.mp hnd).1
    have hndxs : xs.Nodup := (List.nodup_cons.mp hnd).2
    have hHx : countBird q.hand x = countBird p.hand x := hH x (by simp)
    by_cases hc : countBird p.hand x = 4 ∧ ¬ x ∈ q.sets
    · -- the set for x fires at this step
      obtain ⟨hf1, hf2, hf3, hf4⟩ := csBody_fired p q s x hc
      set acc1 := csBody p (s, q) x with hacc1
      have hH1 : ∀ y ∈ xs, countBird acc1.2.hand y = countBird p.hand y := by
        intro y hy
        have hyx : y ≠ x := fun hh => hxnotin (hh ▸ hy)
        rw [hf2, countBird_filter_not_ne q.hand hyx]
        exact hH y (by simp [hy])
      have hmain := ih acc1.1 acc1.2 hndxs hH1
      have hfold : (x :: xs).foldl (csBody p) (s, q) = xs.foldl (csBody p) acc1 := by
        rw [List.foldl_cons]
      rw [hfold]
      have hacc1pair : acc1 = (acc1.1, acc1.2) := rfl
      rw [← hacc1pair] at hmain
      have hcount1 : ∀ bt, countBird acc1.2.hand bt
          = if bt = x then 0 else countBird q.hand bt := by
        intro bt
        by_cases hbx : bt = x
        · rw [if_pos hbx, hbx, hf2]
          exact countBird_filter_not_self q.hand x
        · rw [if_neg hbx, hf2]
          exact countBird_filter_not_ne q.hand hbx
      refine ⟨?_, ?_, ?_, ?_, ?_, ?_⟩
      · intro bt
        have h1 := hmain.1 bt
        rw [hcount1 bt] at h1
        by_cases hbx : bt = x
        · rw [if_pos hbx] at h1; omega
        · rw [if_neg hbx] at h1; exact h1
      · intro bt
        have h1 := hmain.2.1 bt
        rw [hcount1 bt] at h1
        by_cases hbx : bt = x
        · rw [if_pos hbx] at h1
          rcases h1 with h1 | h1
          · exact Or.inr h1
          · exact Or.inr h1
        · rw [if_neg hbx] at h1; exact h1
      · intro bt hbtmem hb4 hbsets
        rcases List.mem_cons.mp hbtmem with hbx | hbxs
        · have h1 := hmain.1 bt
          rw [hcount1 bt, if_pos hbx] at h1
          omega
        · have hbtx : bt ≠ x := fun hh => hxnotin (hh ▸ hbxs)
          have hbsets1 : ¬ bt ∈ acc1.2.sets := by
            rw [hf3]
            intro hmem
            rcases List.mem_append.mp hmem with hmem | hmem
            · exact hbsets hmem
            · exact hbtx (List.mem_singleton.mp hmem)
          exact hmain.2.2.1 bt hbxs hb4 hbsets1
      · intro bt hbt
        refine hmain.2.2.2.1 bt ?_
        rw [hf3]
        exact List.mem_append.mpr (Or.inl hbt)
      · intro w
        rw [hmain.2.2.2.2.1 w]
        unfold wPlayer
        rw [hf2, hf3, wSets_append, wSets_singleton]
        have hsplit := sum_map_filter_split q.hand (fun c => w c.bird_type)
          (fun c => c.bird_type == x)
        have hconst : ((q.hand.filter (fun c => c.bird_type == x)).map
            (fun c => w c.bird_type)).sum
            = (q.hand.filter (fun c => c.bird_type == x)).length * w x := by
          refine sum_map_const_mul _ _ _ ?_
          intro c hcmem
          have h3 : c.bird_type = x := by simpa using (List.mem_filter.mp hcmem).2
          rw [h3]
        have hlen : (q.hand.filter (fun c => c.bird_type == x)).length = 4 := by
          have : countBird q.hand x = 4 := by rw [hHx]; exact hc.1
          simpa [countBird] using this
        unfold wHand at hsplit hconst ⊢
        rw [hlen] at hconst
        omega
      · rw [hmain.2.2.2.2.2, hf4]
    · -- nothing fires for x
      have hstep := csBody_skip p (s, q) x hc
      have hfold : (x :: xs).foldl (csBody p) (s, q) = xs.foldl (csBody p) (s, q) := by
        rw [List.foldl_cons, hstep]
      rw [hfold]
      have hmain := ih s q hndxs (fun y hy => hH y (by simp [hy]))
      refine ⟨hmain.1, hmain.2.1, ?_, hmain.2.2.2.1, hmain.2.2.2.2.1,
        hmain.2.2.2.2.2⟩
      intro bt hbtmem hb4 hbsets
      rcases List.mem_cons.mp hbtmem with hbx | hbxs
      · exfalso
        exact hc ⟨hbx ▸ hb4, hbx ▸ hbsets⟩
      · exact hmain.2.2.1 bt hbxs hb4 hbsets

theorem cs_fold_const (p : Player) (l : List String) (s : List String) (q : Player)
    (h : ∀ x ∈ l, ¬ (countBird p.hand x = 4 ∧ ¬ x ∈ q.sets)) :
    l.foldl (csBody p) (s, q) = (s, q) := by
  induction l generalizing s with
  | nil => rfl
  | cons x xs ih =>
    rw [List.foldl_cons, csBody_skip p (s, q) x (h x (by simp))]
    exact ih s (fun y hy => h y (by simp [hy]))

end Birdgame

namespace Birdgame

theorem check_count_le (p : Player) (bt : String) :
    countBird (p.check_for_sets).2.hand bt ≤ countBird p.hand bt :=
  (cs_fold_main p _ [] p (firstUniques_nodup _) (fun x _ => rfl)).1 bt

theorem check_count_eq_or_zero (p : Player) (bt : String) :
    countBird (p.check_for_sets).2.hand bt = countBird p.hand bt ∨
      countBird (p.check_for_sets).2.hand bt = 0 :=
  (cs_fold_main p _ [] p (firstUniques_nodup _) (fun x _ => rfl)).2.1 bt

theorem check_count_four (p : Player) (bt : String)
    (h4 : countBird p.hand bt = 4) (hs : ¬ bt ∈ p.sets) :
    countBird (p.check_for_sets).2.hand bt = 0 := by
  refine (cs_fold_main p _ [] p (firstUniques_nodup _) (fun x _ => rfl)).2.2.1 bt
    ?_ h4 hs
  rw [firstUniques_mem]
  exact (countBird_pos_iff_mem p.hand bt).mp (by omega)

theorem check_sets_mono (p : Player) (bt : String) (h : bt ∈ p.sets) :
    bt ∈ (p.check_for_sets).2.sets :=
  (cs_fold_main p _ [] p (firstUniques_nodup _) (fun x _ => rfl)).2.2.2.1 bt h

theorem check_wPlayer (p : Player) (w : String → Nat) :
    wPlayer w (p.check_for_sets).2 = wPlayer w p :=
  (cs_fold_main p _ [] p (firstUniques_nodup _) (fun x _ => rfl)).2.2.2.2.1 w

theorem check_name (p : Player) : (p.check_for_sets).2.name = p.name :=
  (cs_fold_main p _ [] p (firstUniques_nodup _) (fun x _ => rfl)).2.2.2.2.2

theorem check_count_le_three (p : Player) (bt : String)
    (h4 : countBird p.hand bt ≤ 4)
    (hns : countBird p.hand bt = 4 → ¬ bt ∈ p.sets) :
    countBird (p.check_for_sets).2.hand bt ≤ 3 := by
  by_cases h : countBird p.hand bt = 4
  · rw [check_count_four p bt h (hns h)]
    omega
  · have := check_count_le p bt
    omega

theorem check_idempotent_eq (p : Player) :
    (p.check_for_sets).2.check_for_sets = ([], (p.check_for_sets).2) := by
  apply cs_fold_const
  intro x hx
  rintro ⟨h4, hns⟩
  have horig : countBird p.hand x = 4 := by
    rcases check_count_eq_or_zero p x with h | h
    · rw [h] at h4; exact h4
    · rw [h] at h4; cases h4
  have hnp : ¬ x ∈ p.sets := fun hmem => hns (check_sets_mono p x hmem)
  have hzero := check_count_four p x horig hnp
  rw [hzero] at h4
  cases h4

theorem remove_cards_of_type_zero (p : Player) (bt : String)
    (h : countBird p.hand bt = 0) :
    p.remove_cards_of_type bt = ([], p) := by
  have hfil : p.hand.filter (fun c => c.bird_type == bt) = [] := by
    unfold countBird at h
    exact List.length_eq_zero.mp h
  unfold Player.remove_cards_of_type Player.get_cards_of_type
  rw [hfil]
  rfl

theorem ask_for_cards_no_bird (g : BirdGame) (i j : Nat) (bt : String)
    (h : countBird (g.players.getD i default).hand bt = 0) :
    g.ask_for_cards i j bt = (0, g) := by
  have hb : (g.players.getD i default).has_bird bt = false :=
    (has_bird_false_iff _ _).mpr h
  unfold BirdGame.ask_for_cards
  rw [if_pos (by simp only [Bool.not_eq_true]; exact hb)]

theorem ask_for_cards_target_zero (g : BirdGame) (i j : Nat) (bt : String)
    (hcount : countBird (g.players.getD j default).hand bt = 0) :
    g.ask_for_cards i j bt = (0, g) := by
  cases hb : (g.players.getD i default).has_bird bt
  · exact ask_for_cards_no_bird g i j bt ((has_bird_false_iff _ _).mp hb)
  · unfold BirdGame.ask_for_cards
    rw [if_neg (fun hcon => hcon hb)]
    dsimp only
    rw [remove_cards_of_type_zero _ bt hcount]
    dsimp only
    rw [if_pos (by rfl)]
    rw [set_getD_self]

/-- The value produced by the hit branch of `BirdGame.ask_for_cards`, written
out for reasoning: the target loses all its matching cards and the asker (as
read back after the target was updated, which matters when the two indices
coincide) gains them one by one. -/
def askHitResult (g : BirdGame) (i j : Nat) (bt : String) : Nat × BirdGame :=
  let rem := (g.players.getD j default).remove_cards_of_type bt
  let players1 := g.players.set j rem.2
  (rem.1.length,
   { g with players :=
       players1.set i (rem.1.foldl Player.add_card (players1.getD i default)) })

theorem ask_for_cards_hit_eq (g : BirdGame) (i j : Nat) (bt : String)
    (hb : (g.players.getD i default).has_bird bt = true)
    (hpos : 0 < countBird (g.players.getD j default).hand bt) :
    g.ask_for_cards i j bt = askHitResult g i j bt := by
  have hne : ¬ ((((g.players.getD j default).remove_cards_of_type bt).1.isEmpty)
      = true) := by
    rw [remove_cards_of_type_fst]
    intro hemp
    rw [List.isEmpty_iff] at hemp
    unfold countBird at hpos
    rw [hemp] at hpos
    simp at hpos
  unfold BirdGame.ask_for_cards askHitResult
  rw [if_neg (fun hcon => hcon hb)]
  dsimp only
  rw [if_neg hne]

end Birdgame

namespace Birdgame

theorem ask_for_cards_deck (g : BirdGame) (i j : Nat) (bt : String) :
    (g.ask_for_cards i j bt).2.deck = g.deck := by
  unfold BirdGame.ask_for_cards
  dsimp only
  split
  · rfl
  · split <;> rfl

theorem ask_for_cards_game_over (g : BirdGame) (i j : Nat) (bt : String) :
    (g.ask_for_cards i j bt).2.game_over = g.game_over := by
  unfold BirdGame.ask_for_cards
  dsimp only
  split
  · rfl
  · split <;> rfl

theorem ask_for_cards_idx (g : BirdGame) (i j : Nat) (bt : String) :
    (g.ask_for_cards i j bt).2.current_player_idx = g.current_player_idx := by
  unfold BirdGame.ask_for_cards
  dsimp only
  split
  · rfl
  · split <;> rfl

theorem draw_card_empty (g : BirdGame) (i : Nat) (h : g.deck.cards = []) :
    g.draw_card i = (none, g) := by
  have hd : g.deck.draw = (none, g.deck) := by
    unfold Deck.draw
    rw [h]
    rfl
  unfold BirdGame.draw_card
  rw [hd]

theorem draw_card_nonempty (g : BirdGame) (i : Nat) (c : Card) (cs : List Card)
    (h : g.deck.cards = cs ++ [c]) :
    g.draw_card i = (some c,
      { g with deck := ⟨cs⟩,
               players := g.players.set i
                 ((g.players.getD i default).add_card c) }) := by
  have hd : g.deck.draw = (some c, ⟨cs⟩) := by
    unfold Deck.draw
    rw [h, List.getLast?_concat]
    dsimp only
    rw [List.dropLast_concat]
  unfold BirdGame.draw_card
  rw [hd]

theorem draw_card_game_over (g : BirdGame) (i : Nat) :
    (g.draw_card i).2.game_over = g.game_over := by
  unfold BirdGame.draw_card
  dsimp only
  split <;> rfl

theorem draw_card_idx (g : BirdGame) (i : Nat) :
    (g.draw_card i).2.current_player_idx = g.current_player_idx := by
  unfold BirdGame.draw_card
  dsimp only
  split <;> rfl

theorem run_check_players (g : BirdGame) (i : Nat) :
    (g.run_check_for_sets i).2.players
      = g.players.set i ((g.players.getD i default).check_for_sets).2 := rfl

theorem run_check_deck (g : BirdGame) (i : Nat) :
    (g.run_check_for_sets i).2.deck = g.deck := rfl

theorem run_check_game_over (g : BirdGame) (i : Nat) :
    (g.run_check_for_sets i).2.game_over = g.game_over := rfl

theorem run_check_idx (g : BirdGame) (i : Nat) :
    (g.run_check_for_sets i).2.current_player_idx = g.current_player_idx := rfl

theorem next_turn_players (g : BirdGame) : g.next_turn.players = g.players := rfl

theorem next_turn_deck (g : BirdGame) : g.next_turn.deck = g.deck := rfl

theorem next_turn_game_over (g : BirdGame) :
    g.next_turn.game_over = g.game_over := rfl

theorem check_game_over_players (g : BirdGame) :
    (g.check_game_over).2.players = g.players := by
  unfold BirdGame.check_game_over
  split <;> rfl

theorem check_game_over_deck (g : BirdGame) :
    (g.check_game_over).2.deck = g.deck := by
  unfold BirdGame.check_game_over
  split <;> rfl

theorem check_game_over_flag_mono (g : BirdGame) (h : g.game_over = true) :
    (g.check_game_over).2.game_over = true := by
  unfold BirdGame.check_game_over
  split
  · rfl
  · exact h

end Birdgame

namespace Birdgame

/-- C3: for every game state and every pair of players, when the asker holds
zero cards of the requested bird type, `ask_for_cards` returns 0 and the
game state — both hands and the deck (so no draw is performed) — is returned
completely unmodified. -/
theorem C3_ask_without_holding (g : BirdGame) (i j : Nat) (bt : String)
    (h : countBird (g.players.getD i default).hand bt = 0) :
    g.ask_for_cards i j bt = (0, g) :=
  ask_for_cards_no_bird g i j bt h

/-- Concrete state for exercising C3: player 0 holds one Owl and no Robin. -/
def gAskNone : BirdGame :=
  ⟨⟨[]⟩, [⟨"A", [⟨"Owl", "Fall"⟩], []⟩, ⟨"B", [⟨"Robin", "Spring"⟩], []⟩], 0, false⟩

/-- Witness for C3: at `gAskNone`, player 0 holds no Robin, and asking
player 1 for Robin returns 0 with the state unchanged. -/
theorem C3_witness :
    countBird (gAskNone.players.getD 0 default).hand "Robin" = 0 ∧
    gAskNone.ask_for_cards 0 1 "Robin" = (0, gAskNone) :=
  ⟨by decide, C3_ask_without_holding gAskNone 0 1 "Robin" (by decide)⟩

theorem check_game_over_fst_iff (g : BirdGame) :
    (g.check_game_over).1 = true ↔
      (g.deck.cards = [] ∧ ∃ p ∈ g.players, p.hand = []) := by
  unfold BirdGame.check_game_over
  by_cases h : (g.deck.is_empty && g.players.any fun p => p.hand.length == 0) = true
  · rw [if_pos h]
    simp only [true_iff]
    rcases Bool.and_eq_true_iff.mp h with ⟨h1, h2⟩
    constructor
    · unfold Deck.is_empty at h1
      simpa using h1
    · rcases List.any_eq_true.mp h2 with ⟨p, hp, hlen⟩
      exact ⟨p, hp, by simpa using hlen⟩
  · rw [if_neg h]
    simp only [Bool.false_eq_true, false_iff]
    rintro ⟨hd, p, hp, hh⟩
    apply h
    rw [Bool.and_eq_true_iff]
    constructor
    · unfold Deck.is_empty
      rw [hd]
      rfl
    · exact List.any_eq_true.mpr ⟨p, hp, by rw [hh]; rfl⟩

/-- C5: `check_game_over` returns true exactly when, at the moment of the
call, the deck is empty and at least one player's hand is empty. -/
theorem C5_game_over_iff (g : BirdGame) :
    (g.check_game_over).1 = true ↔
      (g.deck.cards = [] ∧ ∃ p ∈ g.players, p.hand = []) :=
  check_game_over_fst_iff g

/-- C7: for every player, `check_for_sets` is idempotent — calling it a
second time immediately after a first call, with no hand mutation between the
calls, returns an empty list of newly completed sets. -/
theorem C7_check_for_sets_idempotent (p : Player) :
    ((p.check_for_sets).2.check_for_sets).1 = [] := by
  rw [check_idempotent_eq p]

/-- C10: self-ask — when the player at index `i` holds at least one card of
the bird type, asking themselves returns exactly their count of that type and
leaves their hand unchanged as a multiset (the matching cards are removed and
re-appended at the end). -/
theorem C10_self_ask (g : BirdGame) (i : Nat) (bt : String)
    (hk : 0 < countBird (g.players.getD i default).hand bt) :
    (g.ask_for_cards i i bt).1 = countBird (g.players.getD i default).hand bt ∧
    ((g.ask_for_cards i i bt).2.players.getD i default).hand.Perm
      (g.players.getD i default).hand := by
  have hb : (g.players.getD i default).has_bird bt = true :=
    (has_bird_true_iff _ _).mpr hk
  have hi : i < g.players.length := has_bird_getD_lt _ _ _ hb
  rw [ask_for_cards_hit_eq g i i bt hb hk]
  unfold askHitResult
  dsimp only
  constructor
  · rw [remove_cards_of_type_fst]
    rfl
  · rw [getD_set_self _ _ _ hi, foldl_add_card, getD_set_self]
    · dsimp only
      rw [remove_cards_of_type_hand, remove_cards_of_type_fst]
      refine List.Perm.trans (List.perm_append_comm) ?_
      exact List.filter_append_perm _ _
    · rw [List.length_set]
      exact hi

/-- Concrete state for exercising C10: one player holding two Robins. -/
def gSelf : BirdGame :=
  ⟨⟨[]⟩,
   [⟨"A", [⟨"Robin", "Spring"⟩, ⟨"Owl", "Fall"⟩, ⟨"Robin", "Winter"⟩], []⟩],
   0, false⟩

/-- Witness for C10 at `gSelf`: the player holds 2 Robins; self-asking
returns 2 and permutes the hand. -/
theorem C10_witness :
    0 < countBird (gSelf.players.getD 0 default).hand "Robin" ∧
    (gSelf.ask_for_cards 0 0 "Robin").1
      = countBird (gSelf.players.getD 0 default).hand "Robin" ∧
    ((gSelf.ask_for_cards 0 0 "Robin").2.players.getD 0 default).hand.Perm
      (gSelf.players.getD 0 default).hand :=
  ⟨by decide, (C10_self_ask gSelf 0 "Robin" (by decide)).1,
   (C10_self_ask gSelf 0 "Robin" (by decide)).2⟩

end Birdgame

namespace Birdgame

/-- Concrete over state for C2: deck empty, player A's hand empty. -/
def gOverEx : BirdGame :=
  ⟨⟨[]⟩, [⟨"A", [], []⟩, ⟨"B", [⟨"Robin", "Spring"⟩], []⟩], 0, false⟩

/-- C2 counterexample: at `gOverEx`, `check_game_over` returns true (and sets
the flag); after a card is added back to the deck the flag is still true, yet
the next `check_game_over` call returns false — refuting the claim that once
it has returned true every subsequent call also returns true. -/
theorem C2_counterexample :
    (gOverEx.check_game_over).1 = true ∧
    ({ (gOverEx.check_game_over).2 with
        deck := ⟨[⟨"Owl", "Fall"⟩]⟩ } : BirdGame).game_over = true ∧
    (({ (gOverEx.check_game_over).2 with
        deck := ⟨[⟨"Owl", "Fall"⟩]⟩ } : BirdGame).check_game_over).1 = false := by
  decide

/-- C2 (amended): once the `game_over` flag has been set it is never reset —
`check_game_over`, `ask_for_cards`, `draw_card`, `run_check_for_sets` and
`next_turn` all preserve a true flag — but the boolean returned by
`check_game_over` is recomputed fresh on every call: it is true exactly when
the deck is empty and some hand is empty at that moment, so it returns false
again if cards are added back, even while the flag stays true. -/
theorem C2_flag_permanent_return_fresh (g : BirdGame) (h : g.game_over = true) :
    (g.check_game_over).2.game_over = true ∧
    (∀ i j bt, (g.ask_for_cards i j bt).2.game_over = true) ∧
    (∀ i, (g.draw_card i).2.game_over = true) ∧
    (∀ i, (g.run_check_for_sets i).2.game_over = true) ∧
    g.next_turn.game_over = true ∧
    ((g.check_game_over).1 = true ↔
      (g.deck.cards = [] ∧ ∃ p ∈ g.players, p.hand = [])) := by
  refine ⟨check_game_over_flag_mono g h, ?_, ?_, ?_, ?_, check_game_over_fst_iff g⟩
  · intro i j bt
    rw [ask_for_cards_game_over, h]
  · intro i
    rw [draw_card_game_over, h]
  · intro i
    rw [run_check_game_over, h]
  · rw [next_turn_game_over, h]

/-- Concrete flagged state for the C2 witness: the flag is true while the
deck is nonempty. -/
def gFlagged : BirdGame := ⟨⟨[⟨"Owl", "Fall"⟩]⟩, [⟨"A", [], []⟩], 0, true⟩

/-- Witness for the amended C2 at `gFlagged`: the flag survives the engine
operations, and the fresh predicate is false there (deck nonempty). -/
theorem C2_witness :
    gFlagged.game_over = true ∧
    (gFlagged.check_game_over).2.game_over = true ∧
    (gFlagged.ask_for_cards 0 0 "Robin").2.game_over = true ∧
    (gFlagged.draw_card 0).2.game_over = true ∧
    (gFlagged.run_check_for_sets 0).2.game_over = true ∧
    gFlagged.next_turn.game_over = true :=
  ⟨rfl, (C2_flag_permanent_return_fresh gFlagged rfl).1,
   (C2_flag_permanent_return_fresh gFlagged rfl).2.1 0 0 "Robin",
   (C2_flag_permanent_return_fresh gFlagged rfl).2.2.1 0,
   (C2_flag_permanent_return_fresh gFlagged rfl).2.2.2.1 0,
   (C2_flag_permanent_return_fresh gFlagged rfl).2.2.2.2.1⟩

theorem Deck.draw_nil (d : Deck) (h : d.cards = []) : d.draw = (none, d) := by
  unfold Deck.draw
  rw [h]
  rfl

theorem Deck.draw_concat (d : Deck) (c : Card) (cs : List Card)
    (h : d.cards = cs ++ [c]) : d.draw = (some c, ⟨cs⟩) := by
  unfold Deck.draw
  rw [h, List.getLast?_concat]
  dsimp only
  rw [List.dropLast_concat]

theorem dealRound_cons (d : Deck) (p : Player) (ps : List Player) :
    dealRound d (p :: ps)
      = ((dealRound (d.draw).2 ps).1,
         (match (d.draw).1 with | some c => p.add_card c | none => p)
           :: (dealRound (d.draw).2 ps).2) := rfl

theorem dealRounds_succ (n : Nat) (d : Deck) (ps : List Player) :
    dealRounds (n + 1) d ps
      = dealRounds n (dealRound d ps).1 (dealRound d ps).2 := rfl

theorem dealRound_names (d : Deck) (ps : List Player) :
    (dealRound d ps).2.map Player.name = ps.map Player.name := by
  induction ps generalizing d with
  | nil => rfl
  | cons p ps ih =>
    rw [dealRound_cons]
    dsimp only
    rw [List.map_cons, List.map_cons, ih]
    congr 1
    cases hdr : (d.draw).1 <;> rfl

theorem dealRounds_names (n : Nat) (d : Deck) (ps : List Player) :
    (dealRounds n d ps).2.map Player.name = ps.map Player.name := by
  induction n generalizing d ps with
  | zero => rfl
  | succ n ih =>
    rw [dealRounds_succ, ih, dealRound_names]

theorem map_check_names (ps : List Player) :
    (ps.map (fun p => (p.check_for_sets).2)).map Player.name
      = ps.map Player.name := by
  induction ps with
  | nil => rfl
  | cons p ps ih =>
    simp only [List.map_cons, ih, check_name]

/-- C1 counterexample: constructing a game with a single player name — a
count outside [2,4] — is not rejected: it yields an ordinary, well-defined
game state (1 player, 5 cards dealt so 35 remain, game not over), refuting
the claim that the constructor validates its input. -/
theorem C1_counterexample :
    (BirdGame.init ["Solo"] Deck.create.cards).players.length = 1 ∧
    (BirdGame.init ["Solo"] Deck.create.cards).deck.cards_remaining = 35 ∧
    (BirdGame.init ["Solo"] Deck.create.cards).game_over = false := by
  decide

/-- C1 (amended): the constructor performs no validation at all — for every
player-name list (any length, empty names included) and any shuffle,
construction succeeds and yields a well-defined game state: one player per
name in order, the current player index 0 and the game not over. The
player-count and non-empty-name checks live only in the interactive input
loop of `play_game`, which runs before the constructor. -/
theorem C1_constructor_no_validation (names : List String) (shuffled : List Card) :
    (BirdGame.init names shuffled).players.map Player.name = names ∧
    (BirdGame.init names shuffled).players.length = names.length ∧
    (BirdGame.init names shuffled).game_over = false ∧
    (BirdGame.init names shuffled).current_player_idx = 0 := by
  have hnames : (BirdGame.init names shuffled).players.map Player.name = names := by
    unfold BirdGame.init
    dsimp only
    rw [map_check_names, dealRounds_names]
    rw [List.map_map]
    have hcomp : (Player.name ∘ fun n => Player.mk n [] []) = id := rfl
    rw [hcomp, List.map_id]
  refine ⟨hnames, ?_, rfl, rfl⟩
  have := congrArg List.length hnames
  simpa using this

end Birdgame

namespace Birdgame

theorem countBird_zero_filter_nil (l : List Card) (bt : String)
    (h : countBird l bt = 0) :
    l.filter (fun c => c.bird_type == bt) = [] :=
  List.length_eq_zero.mp h

theorem countBird_zero_no_match (l : List Card) (bt : String)
    (h : countBird l bt = 0) : ∀ c ∈ l, (c.bird_type == bt) = false := by
  intro c hc
  have hnil := countBird_zero_filter_nil l bt h
  have h2 := List.filter_eq_nil_iff.mp hnil c hc
  simpa using h2

/-- C4: whenever the asker holds at least one card of the category and the
two players are distinct, `ask_for_cards` returns exactly the target's count
of matching cards, removes all of them from the target's hand in one bulk
step, appends exactly those cards to the asker's hand, and never touches the
deck; when the target holds none, it returns 0 and the state is unchanged. -/
theorem C4_ask_transfer (g : BirdGame) (i j : Nat) (bt : String)
    (hij : i ≠ j) (hj : j < g.players.length)
    (hask : 0 < countBird (g.players.getD i default).hand bt) :
    (g.ask_for_cards i j bt).1 = countBird (g.players.getD j default).hand bt ∧
    ((g.ask_for_cards i j bt).2.players.getD j default).hand
      = (g.players.getD j default).hand.filter (fun c => !(c.bird_type == bt)) ∧
    ((g.ask_for_cards i j bt).2.players.getD i default).hand
      = (g.players.getD i default).hand
          ++ (g.players.getD j default).hand.filter (fun c => c.bird_type == bt) ∧
    (g.ask_for_cards i j bt).2.deck = g.deck ∧
    (countBird (g.players.getD j default).hand bt = 0 →
      g.ask_for_cards i j bt = (0, g)) := by
  have hb : (g.players.getD i default).has_bird bt = true :=
    (has_bird_true_iff _ _).mpr hask
  have hi : i < g.players.length := has_bird_getD_lt _ _ _ hb
  by_cases ht : countBird (g.players.getD j default).hand bt = 0
  · have heq := ask_for_cards_target_zero g i j bt ht
    rw [heq]
    refine ⟨by rw [ht], ?_, ?_, rfl, fun _ => rfl⟩
    · dsimp only
      symm
      rw [List.filter_eq_self]
      intro c hc
      have := countBird_zero_no_match _ bt ht c hc
      simp [this]
    · dsimp only
      rw [countBird_zero_filter_nil _ bt ht, List.append_nil]
  · have hpos : 0 < countBird (g.players.getD j default).hand bt :=
      Nat.pos_of_ne_zero ht
    rw [ask_for_cards_hit_eq g i j bt hb hpos]
    unfold askHitResult
    dsimp only
    refine ⟨?_, ?_, ?_, rfl, fun hcontra => absurd hcontra ht⟩
    · rw [remove_cards_of_type_fst]
      rfl
    · rw [getD_set_ne _ _ _ (Ne.symm hij), getD_set_self _ _ _ hj]
      exact remove_cards_of_type_hand _ bt
    · rw [getD_set_self]
      · rw [foldl_add_card]
        dsimp only
        rw [getD_set_ne _ _ _ hij, remove_cards_of_type_fst]
      · rw [List.length_set]
        exact hi

/-- Concrete state for exercising C4: player 0 holds a Robin, player 1 holds
two Robins and an Owl, and a card remains in the deck. -/
def gAskHit : BirdGame :=
  ⟨⟨[⟨"Finch", "Spring"⟩]⟩,
   [⟨"A", [⟨"Robin", "Spring"⟩], []⟩,
    ⟨"B", [⟨"Robin", "Summer"⟩, ⟨"Owl", "Fall"⟩, ⟨"Robin", "Winter"⟩], []⟩],
   0, false⟩

/-- Witness for C4 at `gAskHit`: player 0 asks player 1 for Robin; both of
player 1's Robins move to player 0 and the deck is untouched. -/
theorem C4_witness :
    (gAskHit.ask_for_cards 0 1 "Robin").1
      = countBird (gAskHit.players.getD 1 default).hand "Robin" ∧
    ((gAskHit.ask_for_cards 0 1 "Robin").2.players.getD 1 default).hand
      = (gAskHit.players.getD 1 default).hand.filter
          (fun c => !(c.bird_type == "Robin")) ∧
    ((gAskHit.ask_for_cards 0 1 "Robin").2.players.getD 0 default).hand
      = (gAskHit.players.getD 0 default).hand
          ++ (gAskHit.players.getD 1 default).hand.filter
              (fun c => c.bird_type == "Robin") ∧
    (gAskHit.ask_for_cards 0 1 "Robin").2.deck = gAskHit.deck :=
  ⟨(C4_ask_transfer gAskHit 0 1 "Robin" (by decide) (by decide) (by decide)).1,
   (C4_ask_transfer gAskHit 0 1 "Robin" (by decide) (by decide) (by decide)).2.1,
   (C4_ask_transfer gAskHit 0 1 "Robin" (by decide) (by decide) (by decide)).2.2.1,
   (C4_ask_transfer gAskHit 0 1 "Robin" (by decide) (by decide) (by decide)).2.2.2.1⟩

end Birdgame

namespace Birdgame

section MoreListHelpers

variable {α : Type}

theorem getD_mem {l : List α} {i : Nat} (d : α) (h : i < l.length) :
    l.getD i d ∈ l := by
  induction l generalizing i with
  | nil => simp at h
  | cons x xs ih =>
    cases i with
    | zero => simp
    | succ n =>
      simp only [List.getD_cons_succ]
      exact List.mem_cons_of_mem _ (ih (by simpa using h))

theorem mem_getD_index {l : List α} {y : α} (d : α) (h : y ∈ l) :
    ∃ k, k < l.length ∧ l.getD k d = y := by
  induction l with
  | nil => cases h
  | cons x xs ih =>
    rcases List.mem_cons.mp h with rfl | hmem
    · exact ⟨0, by simp, rfl⟩
    · rcases ih hmem with ⟨k, hk, hky⟩
      exact ⟨k + 1, by simpa using hk, by simpa using hky⟩

theorem le_foldl_max (l : List Nat) (a : Nat) : a ≤ l.foldl Nat.max a := by
  induction l generalizing a with
  | nil => exact le_refl a
  | cons x xs ih =>
    exact le_trans (Nat.le_max_left a x) (ih (Nat.max a x))

theorem mem_le_foldl_max (l : List Nat) (a x : Nat) (h : x ∈ l) :
    x ≤ l.foldl Nat.max a := by
  induction l generalizing a with
  | nil => cases h
  | cons y ys ih =>
    rcases List.mem_cons.mp h with rfl | hmem
    · exact le_trans (Nat.le_max_right a x) (le_foldl_max ys _)
    · exact ih (Nat.max a y) hmem

theorem foldl_max_le (l : List Nat) (a b : Nat) (ha : a ≤ b)
    (h : ∀ x ∈ l, x ≤ b) : l.foldl Nat.max a ≤ b := by
  induction l generalizing a with
  | nil => exact ha
  | cons y ys ih =>
    exact ih (Nat.max a y) (Nat.max_le.mpr ⟨ha, h y (by simp)⟩)
      (fun x hx => h x (by simp [hx]))

theorem filter_eq_singleton_of_unique (l : List α) (q : α → Bool) (d : α) :
    ∀ (i : Nat), i < l.length → q (l.getD i d) = true →
    (∀ k, k < l.length → k ≠ i → q (l.getD k d) = false) →
    l.filter q = [l.getD i d] := by
  induction l with
  | nil =>
    intro i hi
    simp at hi
  | cons x xs ih =>
    intro i hi hqi hothers
    cases i with
    | zero =>
      simp only [List.getD_cons_zero] at hqi ⊢
      rw [List.filter_cons, if_pos hqi]
      have hxs : xs.filter q = [] := by
        rw [List.filter_eq_nil_iff]
        intro a ha
        rcases mem_getD_index d ha with ⟨k, hk, hky⟩
        have hz := hothers (k + 1) (by simpa using hk) (by omega)
        rw [List.getD_cons_succ, hky] at hz
        simp [hz]
      rw [hxs]
    | succ n =>
      have hx : q x = false := by
        have hz := hothers 0 (by simp) (by omega)
        simpa using hz
      rw [List.filter_cons, if_neg (by simp [hx])]
      simp only [List.getD_cons_succ] at hqi ⊢
      refine ih n (by simpa using hi) hqi ?_
      intro k hk hkn
      have hz := hothers (k + 1) (by simpa using hk) (by omega)
      simpa using hz

theorem one_le_filter_length (l : List α) (q : α → Bool) (d : α)
    (a : Nat) (ha : a < l.length) (hqa : q (l.getD a d) = true) :
    1 ≤ (l.filter q).length := by
  have hmem : l.getD a d ∈ l.filter q :=
    List.mem_filter.mpr ⟨getD_mem d ha, hqa⟩
  have := List.length_pos.mpr (List.ne_nil_of_mem hmem)
  omega

theorem two_le_filter_length (l : List α) (q : α → Bool) (d : α) :
    ∀ (a b : Nat), a < b → b < l.length → q (l.getD a d) = true →
    q (l.getD b d) = true → 2 ≤ (l.filter q).length := by
  induction l with
  | nil =>
    intro a b hab hb
    simp at hb
  | cons x xs ih =>
    intro a b hab hb hqa hqb
    cases a with
    | zero =>
      simp only [List.getD_cons_zero] at hqa
      rw [List.filter_cons, if_pos hqa, List.length_cons]
      cases b with
      | zero => omega
      | succ m =>
        simp only [List.getD_cons_succ] at hqb
        have := one_le_filter_length xs q d m (by simpa using hb) hqb
        omega
    | succ n =>
      cases b with
      | zero => omega
      | succ m =>
        simp only [List.getD_cons_succ] at hqa hqb
        have h2 := ih n m (by omega) (by simpa using hb) hqa hqb
        rw [List.filter_cons]
        by_cases hx : q x = true
        · rw [if_pos hx, List.length_cons]
          omega
        · rw [if_neg hx]
          omega

end MoreListHelpers

theorem get_winner_eq_of_over (g : BirdGame) (h : g.game_over = true) :
    g.get_winner =
      (if (g.players.filter (fun p =>
            p.score == (g.players.map Player.score).foldl Nat.max 0)).length = 1
       then (g.players.filter (fun p =>
            p.score == (g.players.map Player.score).foldl Nat.max 0)).head?
       else none) := by
  unfold BirdGame.get_winner
  rw [if_neg (by simp [h])]

end Birdgame

namespace Birdgame

/-- C8: after the game is over, `get_winner` returns the player whose score
is strictly higher than every other player's score when such a player exists,
and returns no winner (a tie) whenever two distinct seats share the maximum
score. -/
theorem C8_winner (g : BirdGame) (hover : g.game_over = true)
    (i : Nat) (hi : i < g.players.length) :
    ((∀ k, k < g.players.length → k ≠ i →
        (g.players.getD k default).score < (g.players.getD i default).score) →
      g.get_winner = some (g.players.getD i default)) ∧
    (∀ j, j < g.players.length → i < j →
      (g.players.getD i default).score = (g.players.getD j default).score →
      (∀ k, k < g.players.length →
        (g.players.getD k default).score ≤ (g.players.getD i default).score) →
      g.get_winner = none) := by
  constructor
  · intro hstrict
    have hall : ∀ k, k < g.players.length →
        (g.players.getD k default).score ≤ (g.players.getD i default).score := by
      intro k hk
      by_cases hki : k = i
      · rw [hki]
      · exact le_of_lt (hstrict k hk hki)
    have hM : (g.players.map Player.score).foldl Nat.max 0
        = (g.players.getD i default).score := by
      apply le_antisymm
      · refine foldl_max_le _ 0 _ (Nat.zero_le _) ?_
        intro x hx
        rcases List.mem_map.mp hx with ⟨p, hp, rfl⟩
        rcases mem_getD_index default hp with ⟨k, hk, rfl⟩
        exact hall k hk
      · exact mem_le_foldl_max _ 0 _
          (List.mem_map.mpr ⟨_, getD_mem default hi, rfl⟩)
    rw [get_winner_eq_of_over g hover]
    have hfil : g.players.filter (fun p =>
        p.score == (g.players.map Player.score).foldl Nat.max 0)
        = [g.players.getD i default] := by
      refine filter_eq_singleton_of_unique _ _ default i hi ?_ ?_
      · rw [hM]
        simp
      · intro k hk hki
        rw [hM]
        simp only [beq_eq_false_iff_ne, ne_eq]
        exact Nat.ne_of_lt (hstrict k hk hki)
    rw [hfil]
    simp
  · intro j hj hij hscore hall
    have hM : (g.players.map Player.score).foldl Nat.max 0
        = (g.players.getD i default).score := by
      apply le_antisymm
      · refine foldl_max_le _ 0 _ (Nat.zero_le _) ?_
        intro x hx
        rcases List.mem_map.mp hx with ⟨p, hp, rfl⟩
        rcases mem_getD_index default hp with ⟨k, hk, rfl⟩
        exact hall k hk
      · exact mem_le_foldl_max _ 0 _
          (List.mem_map.mpr ⟨_, getD_mem default hi, rfl⟩)
    rw [get_winner_eq_of_over g hover]
    have h2 : 2 ≤ (g.players.filter (fun p =>
        p.score == (g.players.map Player.score).foldl Nat.max 0)).length := by
      refine two_le_filter_length _ _ default i j hij hj ?_ ?_
      · rw [hM]
        simp
      · rw [hM, hscore]
        simp
    rw [if_neg (by omega)]

/-- Concrete over state with a unique winner for the C8 witness. -/
def gWin : BirdGame :=
  ⟨⟨[]⟩, [⟨"A", [], ["Robin"]⟩, ⟨"B", [], []⟩], 0, true⟩

/-- Concrete over state with two tied scores for the C8 witness. -/
def gTie : BirdGame :=
  ⟨⟨[]⟩, [⟨"A", [], ["Robin"]⟩, ⟨"B", [], ["Owl"]⟩], 0, true⟩

/-- Witness for C8: in `gWin` player A (score 1 against 0) is returned; in
`gTie` (scores 1 and 1) no winner is returned. -/
theorem C8_witness :
    gWin.get_winner = some (gWin.players.getD 0 default) ∧
    gTie.get_winner = none :=
  ⟨(C8_winner gWin rfl 0 (by decide)).1 (by decide),
   (C8_winner gTie rfl 0 (by decide)).2 1 (by decide) (by decide) (by decide)
     (by decide)⟩

end Birdgame

namespace Birdgame

theorem set_of_le {α : Type} (l : List α) {i : Nat} (x : α) (h : l.length ≤ i) :
    l.set i x = l := by
  induction l generalizing i with
  | nil => rfl
  | cons y ys ih =>
    cases i with
    | zero => simp at h
    | succ n =>
      simp only [List.set_cons_succ]
      rw [ih (by simpa using h)]

theorem countBird_getD_lt (l : List Player) (j : Nat) (bt : String)
    (h : 0 < countBird (l.getD j default).hand bt) : j < l.length := by
  by_contra hc
  push_neg at hc
  rw [getD_eq_default _ hc] at h
  rw [default_player_hand] at h
  simp [countBird] at h

theorem wPlayer_add_card (w : String → Nat) (p : Player) (c : Card) :
    wPlayer w (p.add_card c) = wPlayer w p + w c.bird_type := by
  unfold wPlayer Player.add_card
  dsimp only
  rw [wHand_append, wHand_cons, wHand_nil]
  omega

theorem wPlayer_one (p : Player) :
    wPlayer (fun _ => 1) p = p.hand.length + 4 * p.sets.length := by
  unfold wPlayer
  rw [wHand_one, wSets_one]

theorem cardMeasure_eq_wGame (g : BirdGame) :
    g.cardMeasure = wGame (fun _ => 1) g := by
  unfold BirdGame.cardMeasure wGame Deck.cards_remaining
  rw [wHand_one]
  have hfun : (fun p : Player => p.hand.length + 4 * p.sets.length)
      = wPlayer (fun _ => 1) := funext (fun p => (wPlayer_one p).symm)
  rw [hfun]

theorem wPlayer_remove_split (w : String → Nat) (p : Player) (bt : String) :
    wPlayer w p = wPlayer w (p.remove_cards_of_type bt).2
      + wHand w (p.remove_cards_of_type bt).1 := by
  unfold wPlayer
  rw [remove_cards_of_type_hand, remove_cards_of_type_sets,
    remove_cards_of_type_fst]
  have hsplit := sum_map_filter_split p.hand (fun c => w c.bird_type)
    (fun c => c.bird_type == bt)
  unfold wHand
  omega

theorem ask_wGame (g : BirdGame) (i j : Nat) (bt : String) (w : String → Nat) :
    wGame w (g.ask_for_cards i j bt).2 = wGame w g := by
  cases hb : (g.players.getD i default).has_bird bt
  · rw [ask_for_cards_no_bird g i j bt ((has_bird_false_iff _ _).mp hb)]
  · by_cases ht : countBird (g.players.getD j default).hand bt = 0
    · rw [ask_for_cards_target_zero g i j bt ht]
    · have hpos : 0 < countBird (g.players.getD j default).hand bt :=
        Nat.pos_of_ne_zero ht
      have hi : i < g.players.length := has_bird_getD_lt _ _ _ hb
      have hj : j < g.players.length := countBird_getD_lt _ _ _ hpos
      rw [ask_for_cards_hit_eq g i j bt hb hpos]
      unfold askHitResult wGame
      dsimp only
      have hlen1 : i < (g.players.set j
          ((g.players.getD j default).remove_cards_of_type bt).2).length := by
        rw [List.length_set]
        exact hi
      have e1 := sum_map_set
        (g.players.set j ((g.players.getD j default).remove_cards_of_type bt).2)
        (wPlayer w)
        ((((g.players.getD j default).remove_cards_of_type bt).1).foldl
          Player.add_card
          ((g.players.set j
            ((g.players.getD j default).remove_cards_of_type bt).2).getD i default))
        default hlen1
      have e2 := sum_map_set g.players (wPlayer w)
        ((g.players.getD j default).remove_cards_of_type bt).2 default hj
      have e3 : wPlayer w
          ((((g.players.getD j default).remove_cards_of_type bt).1).foldl
            Player.add_card
            ((g.players.set j
              ((g.players.getD j default).remove_cards_of_type bt).2).getD
                i default))
          = wPlayer w ((g.players.set j
              ((g.players.getD j default).remove_cards_of_type bt).2).getD
                i default)
            + wHand w ((g.players.getD j default).remove_cards_of_type bt).1 := by
        rw [foldl_add_card]
        unfold wPlayer
        dsimp only
        rw [wHand_append]
        omega
      have e4 := wPlayer_remove_split w (g.players.getD j default) bt
      omega

theorem draw_wGame (g : BirdGame) (i : Nat) (w : String → Nat)
    (hi : i < g.players.length) :
    wGame w (g.draw_card i).2 = wGame w g := by
  rcases List.eq_nil_or_concat g.deck.cards with hnil | ⟨cs, c, hcat⟩
  · rw [draw_card_empty g i hnil]
  · rw [List.concat_eq_append] at hcat
    rw [draw_card_nonempty g i c cs hcat]
    unfold wGame
    dsimp only
    rw [hcat, wHand_append, wHand_cons, wHand_nil]
    have e1 := sum_map_set g.players (wPlayer w)
      ((g.players.getD i default).add_card c) default hi
    have e2 := wPlayer_add_card w (g.players.getD i default) c
    omega

theorem default_check_for_sets : (default : Player).check_for_sets
    = ([], (default : Player)) := by
  unfold Player.check_for_sets
  have hfu : firstUniques ((default : Player).hand.map (fun c => c.bird_type))
      = [] := by
    have hh : (default : Player).hand = [] := rfl
    rw [hh]
    simp only [List.map_nil]
    rw [firstUniques]
  rw [hfu]
  rfl

theorem run_check_wGame (g : BirdGame) (i : Nat) (w : String → Nat) :
    wGame w (g.run_check_for_sets i).2 = wGame w g := by
  unfold wGame
  rw [run_check_deck, run_check_players]
  by_cases hi : i < g.players.length
  · have e1 := sum_map_set g.players (wPlayer w)
      ((g.players.getD i default).check_for_sets).2 default hi
    have e2 := check_wPlayer (g.players.getD i default) w
    omega
  · push_neg at hi
    rw [set_of_le _ _ hi]

theorem dealRound_w (w : String → Nat) (ps : List Player) :
    ∀ d : Deck,
    wHand w (dealRound d ps).1.cards + ((dealRound d ps).2.map (wPlayer w)).sum
      = wHand w d.cards + (ps.map (wPlayer w)).sum := by
  induction ps with
  | nil =>
    intro d
    rfl
  | cons p ps ih =>
    intro d
    rw [dealRound_cons]
    dsimp only
    rcases List.eq_nil_or_concat d.cards with hnil | ⟨cs, c, hcat⟩
    · rw [Deck.draw_nil d hnil]
      dsimp only
      rw [List.map_cons, List.sum_cons]
      have h1 := ih d
      rw [List.map_cons, List.sum_cons]
      omega
    · rw [List.concat_eq_append] at hcat
      rw [Deck.draw_concat d c cs hcat]
      dsimp only
      rw [List.map_cons, List.sum_cons]
      have h1 := ih ⟨cs⟩
      dsimp only at h1
      have h2 := wPlayer_add_card w p c
      rw [List.map_cons, List.sum_cons, hcat, wHand_append, wHand_cons, wHand_nil]
      omega

theorem dealRounds_w (w : String → Nat) (n : Nat) :
    ∀ (d : Deck) (ps : List Player),
    wHand w (dealRounds n d ps).1.cards
        + ((dealRounds n d ps).2.map (wPlayer w)).sum
      = wHand w d.cards + (ps.map (wPlayer w)).sum := by
  induction n with
  | zero =>
    intro d ps
    rfl
  | succ n ih =>
    intro d ps
    rw [dealRounds_succ, ih]
    exact dealRound_w w ps d

theorem map_check_wPlayers (w : String → Nat) (ps : List Player) :
    ((ps.map (fun p => (p.check_for_sets).2)).map (wPlayer w)).sum
      = (ps.map (wPlayer w)).sum := by
  induction ps with
  | nil => rfl
  | cons p ps ih =>
    simp only [List.map_cons, List.sum_cons, ih, check_wPlayer]

theorem fresh_players_wZero (w : String → Nat) (names : List String) :
    ((names.map (fun n => Player.mk n [] [])).map (wPlayer w)).sum = 0 := by
  induction names with
  | nil => rfl
  | cons n ns ih =>
    simp only [List.map_cons, List.sum_cons, ih]
    rfl

theorem init_wGame (names : List String) (shuffled : List Card)
    (w : String → Nat) :
    wGame w (BirdGame.init names shuffled) = wHand w shuffled := by
  unfold BirdGame.init wGame
  dsimp only
  rw [map_check_wPlayers]
  have hd := dealRounds_w w
    (if (names.map (fun n => Player.mk n [] [])).length = 2 then 7 else 5)
    ⟨shuffled⟩ (names.map (fun n => Player.mk n [] []))
  dsimp only at hd
  have hz := fresh_players_wZero w names
  omega

end Birdgame

namespace Birdgame

/-- C9: card conservation — a game constructed from the full 40-card shuffle
has deck size plus, over all players, hand size plus 4 per completed set,
equal to 40; and `ask_for_cards`, `draw_card` (at a valid player index) and
`check_for_sets` (run on any player of the game) each preserve that
quantity, so no operation creates or destroys a card. -/
theorem C9_card_conservation (names : List String) (shuffled : List Card)
    (g : BirdGame) (i j k m : Nat) (bt : String)
    (hlen : shuffled.length = 40) (hk : k < g.players.length) :
    (BirdGame.init names shuffled).cardMeasure = 40 ∧
    (g.ask_for_cards i j bt).2.cardMeasure = g.cardMeasure ∧
    (g.draw_card k).2.cardMeasure = g.cardMeasure ∧
    (g.run_check_for_sets m).2.cardMeasure = g.cardMeasure := by
  refine ⟨?_, ?_, ?_, ?_⟩
  · rw [cardMeasure_eq_wGame, init_wGame, wHand_one, hlen]
  · rw [cardMeasure_eq_wGame, cardMeasure_eq_wGame, ask_wGame]
  · rw [cardMeasure_eq_wGame, cardMeasure_eq_wGame, draw_wGame g k _ hk]
  · rw [cardMeasure_eq_wGame, cardMeasure_eq_wGame, run_check_wGame]

/-- Concrete state for the C9 witness. -/
def gC9 : BirdGame :=
  ⟨⟨[⟨"Finch", "Spring"⟩]⟩,
   [⟨"A", [⟨"Robin", "Spring"⟩], []⟩,
    ⟨"B", [⟨"Robin", "Summer"⟩, ⟨"Owl", "Fall"⟩], ["Hawk"]⟩],
   0, false⟩

/-- Witness for C9 at concrete inputs: the freshly constructed two-player
game measures 40, and the three operations preserve the measure of `gC9`. -/
theorem C9_witness :
    (BirdGame.init ["A", "B"] Deck.create.cards).cardMeasure = 40 ∧
    (gC9.ask_for_cards 0 1 "Robin").2.cardMeasure = gC9.cardMeasure ∧
    (gC9.draw_card 0).2.cardMeasure = gC9.cardMeasure ∧
    (gC9.run_check_for_sets 1).2.cardMeasure = gC9.cardMeasure :=
  C9_card_conservation ["A", "B"] Deck.create.cards gC9 0 1 0 1 "Robin"
    (by decide) (by decide)

end Birdgame

namespace Birdgame

theorem mem_le_sum (l : List Nat) (x : Nat) (h : x ∈ l) : x ≤ l.sum := by
  induction l with
  | nil => cases h
  | cons y ys ih =>
    rcases List.mem_cons.mp h with rfl | hm
    · simp
    · have := ih hm
      simp only [List.sum_cons]
      omega

theorem ask_players_length (g : BirdGame) (i j : Nat) (bt : String) :
    (g.ask_for_cards i j bt).2.players.length = g.players.length := by
  cases hb : (g.players.getD i default).has_bird bt
  · rw [ask_for_cards_no_bird g i j bt ((has_bird_false_iff _ _).mp hb)]
  · by_cases ht : countBird (g.players.getD j default).hand bt = 0
    · rw [ask_for_cards_target_zero g i j bt ht]
    · rw [ask_for_cards_hit_eq g i j bt hb (Nat.pos_of_ne_zero ht)]
      unfold askHitResult
      dsimp only
      rw [List.length_set, List.length_set]

theorem draw_players_length (g : BirdGame) (i : Nat) :
    (g.draw_card i).2.players.length = g.players.length := by
  rcases List.eq_nil_or_concat g.deck.cards with hnil | ⟨cs, c, hcat⟩
  · rw [draw_card_empty g i hnil]
  · rw [List.concat_eq_append] at hcat
    rw [draw_card_nonempty g i c cs hcat]
    dsimp only
    rw [List.length_set]

theorem run_check_players_length (g : BirdGame) (i : Nat) :
    (g.run_check_for_sets i).2.players.length = g.players.length := by
  rw [run_check_players, List.length_set]

theorem ask_players_getD_other (g : BirdGame) (i j k : Nat) (bt : String)
    (hki : k ≠ i) (hkj : k ≠ j) :
    (g.ask_for_cards i j bt).2.players.getD k default
      = g.players.getD k default := by
  cases hb : (g.players.getD i default).has_bird bt
  · rw [ask_for_cards_no_bird g i j bt ((has_bird_false_iff _ _).mp hb)]
  · by_cases ht : countBird (g.players.getD j default).hand bt = 0
    · rw [ask_for_cards_target_zero g i j bt ht]
    · rw [ask_for_cards_hit_eq g i j bt hb (Nat.pos_of_ne_zero ht)]
      unfold askHitResult
      dsimp only
      rw [getD_set_ne _ _ _ hki, getD_set_ne _ _ _ hkj]

theorem draw_players_getD_other (g : BirdGame) (i k : Nat) (hki : k ≠ i) :
    (g.draw_card i).2.players.getD k default = g.players.getD k default := by
  rcases List.eq_nil_or_concat g.deck.cards with hnil | ⟨cs, c, hcat⟩
  · rw [draw_card_empty g i hnil]
  · rw [List.concat_eq_append] at hcat
    rw [draw_card_nonempty g i c cs hcat]
    dsimp only
    rw [getD_set_ne _ _ _ hki]

theorem run_check_getD_other (g : BirdGame) (i k : Nat) (hki : k ≠ i) :
    (g.run_check_for_sets i).2.players.getD k default
      = g.players.getD k default := by
  rw [run_check_players, getD_set_ne _ _ _ hki]

theorem run_check_getD_self (g : BirdGame) (i : Nat) (hi : i < g.players.length) :
    (g.run_check_for_sets i).2.players.getD i default
      = ((g.players.getD i default).check_for_sets).2 := by
  rw [run_check_players, getD_set_self _ _ _ hi]

theorem totalBird_eq_wGame (g : BirdGame) (bt : String) :
    totalBird g bt = wGame (fun s => if s = bt then 1 else 0) g := rfl

theorem wPlayer_indicator (p : Player) (bt : String) :
    wPlayer (fun s => if s = bt then 1 else 0) p
      = countBird p.hand bt + 4 * p.sets.count bt := by
  unfold wPlayer
  rw [wHand_indicator, wSets_indicator]

theorem player_le_totalBird (g : BirdGame) (k : Nat) (bt : String)
    (hk : k < g.players.length) :
    countBird (g.players.getD k default).hand bt
      + 4 * ((g.players.getD k default).sets.count bt) ≤ totalBird g bt := by
  rw [totalBird_eq_wGame]
  unfold wGame
  have h1 := sum_map_getD_le g.players
    (wPlayer (fun s => if s = bt then 1 else 0)) default hk
  rw [wPlayer_indicator] at h1
  omega

theorem countBird_block (b bt : String) :
    countBird (Deck.SUITS.map (fun s => Card.mk b s)) bt
      = if b = bt then 4 else 0 := by
  by_cases h : b = bt
  · rw [if_pos h, h]
    simp [countBird, Deck.SUITS, List.filter]
  · rw [if_neg h]
    have hf : (b == bt) = false := by simp [h]
    simp [countBird, Deck.SUITS, List.filter, hf]

theorem count_flatMap_zero (l : List String) (bt : String)
    (h : ∀ b ∈ l, b ≠ bt) :
    countBird (l.flatMap (fun b => Deck.SUITS.map (fun s => Card.mk b s))) bt
      = 0 := by
  induction l with
  | nil => simp [countBird]
  | cons x xs ih =>
    rw [List.flatMap_cons, countBird_append, countBird_block,
      if_neg (h x (by simp)), ih (fun b hb => h b (by simp [hb]))]

theorem count_flatMap_le (l : List String) (bt : String) (hnd : l.Nodup) :
    countBird (l.flatMap (fun b => Deck.SUITS.map (fun s => Card.mk b s))) bt
      ≤ 4 := by
  induction l with
  | nil => simp [countBird]
  | cons x xs ih =>
    rcases List.nodup_cons.mp hnd with ⟨hx, hxs⟩
    rw [List.flatMap_cons, countBird_append, countBird_block]
    by_cases h : x = bt
    · rw [if_pos h]
      have hz : countBird
          (xs.flatMap (fun b => Deck.SUITS.map (fun s => Card.mk b s))) bt = 0 := by
        refine count_flatMap_zero xs bt ?_
        intro b hb hbt
        exact hx (by rw [h, ← hbt]; exact hb)
      omega
    · rw [if_neg h]
      have := ih hxs
      omega

theorem countBird_create_le (bt : String) :
    countBird Deck.create.cards bt ≤ 4 := by
  unfold Deck.create
  dsimp only
  exact count_flatMap_le Deck.BIRD_TYPES bt (by decide)

theorem countBird_perm {l1 l2 : List Card} (h : l1.Perm l2) (bt : String) :
    countBird l1 bt = countBird l2 bt :=
  (h.filter _).length_eq

end Birdgame

namespace Birdgame

theorem dealRound_sets (d : Deck) (ps : List Player) :
    (dealRound d ps).2.map Player.sets = ps.map Player.sets := by
  induction ps generalizing d with
  | nil => rfl
  | cons p ps ih =>
    rw [dealRound_cons]
    dsimp only
    rw [List.map_cons, List.map_cons, ih]
    congr 1
    cases hdr : (d.draw).1 <;> rfl

theorem dealRounds_sets (n : Nat) : ∀ (d : Deck) (ps : List Player),
    (dealRounds n d ps).2.map Player.sets = ps.map Player.sets := by
  induction n with
  | zero =>
    intro d ps
    rfl
  | succ n ih =>
    intro d ps
    rw [dealRounds_succ, ih, dealRound_sets]

theorem dealRounds_mem_sets_nil (n : Nat) (d : Deck) (names : List String) :
    ∀ q ∈ (dealRounds n d (names.map (fun nm => Player.mk nm [] []))).2,
      q.sets = ([] : List String) := by
  intro q hq
  have hmem : q.sets ∈ (dealRounds n d
      (names.map (fun nm => Player.mk nm [] []))).2.map Player.sets :=
    List.mem_map_of_mem _ hq
  rw [dealRounds_sets] at hmem
  rw [List.map_map] at hmem
  rcases List.mem_map.mp hmem with ⟨nm, hnm, hps⟩
  exact hps.symm

theorem dealRounds_hand_le (n : Nat) (shuffled : List Card)
    (names : List String) (hperm : shuffled.Perm Deck.create.cards)
    (bt : String) :
    ∀ q ∈ (dealRounds n ⟨shuffled⟩
        (names.map (fun nm => Player.mk nm [] []))).2,
      countBird q.hand bt ≤ 4 := by
  intro q hq
  have hd := dealRounds_w (fun s => if s = bt then 1 else 0) n ⟨shuffled⟩
    (names.map (fun nm => Player.mk nm [] []))
  dsimp only at hd
  have hz := fresh_players_wZero (fun s => if s = bt then 1 else 0) names
  have hmem : wPlayer (fun s => if s = bt then 1 else 0) q
      ∈ (dealRounds n ⟨shuffled⟩
          (names.map (fun nm => Player.mk nm [] []))).2.map
          (wPlayer (fun s => if s = bt then 1 else 0)) :=
    List.mem_map_of_mem _ hq
  have hle := mem_le_sum _ _ hmem
  have hwp := wPlayer_indicator q bt
  have hsh : wHand (fun s => if s = bt then 1 else 0) shuffled ≤ 4 := by
    rw [wHand_indicator, countBird_perm hperm]
    exact countBird_create_le bt
  omega

/-- The protocol invariant: every bird type has at most 4 copies in the whole
game (deck, hands and completed sets together), and every hand holds at most
3 cards of any single bird type. -/
def GoodState (g : BirdGame) : Prop :=
  (∀ bt, totalBird g bt ≤ 4) ∧
  (∀ k, k < g.players.length → ∀ bt,
    countBird (g.players.getD k default).hand bt ≤ 3)

theorem init_hands_le (names : List String) (shuffled : List Card)
    (hperm : shuffled.Perm Deck.create.cards) :
    ∀ p ∈ (BirdGame.init names shuffled).players, ∀ bt,
      countBird p.hand bt ≤ 3 := by
  intro p hp bt
  unfold BirdGame.init at hp
  dsimp only at hp
  rcases List.mem_map.mp hp with ⟨q, hq, rfl⟩
  have hsets := dealRounds_mem_sets_nil _ _ names q hq
  have hcount := dealRounds_hand_le _ shuffled names hperm bt q hq
  refine check_count_le_three q bt hcount ?_
  intro _ hmem
  rw [hsets] at hmem
  exact List.not_mem_nil bt hmem

theorem totalBird_init_le (names : List String) (shuffled : List Card)
    (hperm : shuffled.Perm Deck.create.cards) (bt : String) :
    totalBird (BirdGame.init names shuffled) bt ≤ 4 := by
  rw [totalBird_eq_wGame, init_wGame, wHand_indicator, countBird_perm hperm]
  exact countBird_create_le bt

theorem init_GoodState (names : List String) (shuffled : List Card)
    (hperm : shuffled.Perm Deck.create.cards) :
    GoodState (BirdGame.init names shuffled) := by
  constructor
  · intro bt
    exact totalBird_init_le names shuffled hperm bt
  · intro k hk bt
    exact init_hands_le names shuffled hperm _ (getD_mem default hk) bt

theorem ask_totalBird (g : BirdGame) (i j : Nat) (bt bt' : String) :
    totalBird (g.ask_for_cards i j bt).2 bt' = totalBird g bt' := by
  rw [totalBird_eq_wGame, totalBird_eq_wGame]
  exact ask_wGame g i j bt _

theorem draw_totalBird (g : BirdGame) (i : Nat) (bt' : String)
    (hi : i < g.players.length) :
    totalBird (g.draw_card i).2 bt' = totalBird g bt' := by
  rw [totalBird_eq_wGame, totalBird_eq_wGame]
  exact draw_wGame g i _ hi

theorem run_check_totalBird (g : BirdGame) (i : Nat) (bt' : String) :
    totalBird (g.run_check_for_sets i).2 bt' = totalBird g bt' := by
  rw [totalBird_eq_wGame, totalBird_eq_wGame]
  exact run_check_wGame g i _

theorem next_turn_totalBird (g : BirdGame) (bt' : String) :
    totalBird g.next_turn bt' = totalBird g bt' := rfl

theorem check_game_over_totalBird (g : BirdGame) (bt' : String) :
    totalBird (g.check_game_over).2 bt' = totalBird g bt' := by
  unfold totalBird wGame
  rw [check_game_over_players, check_game_over_deck]

theorem next_turn_GoodState (g : BirdGame) (hg : GoodState g) :
    GoodState g.next_turn := by
  constructor
  · intro bt
    rw [next_turn_totalBird]
    exact hg.1 bt
  · intro k hk bt
    rw [next_turn_players] at hk ⊢
    exact hg.2 k hk bt

theorem check_game_over_GoodState (g : BirdGame) (hg : GoodState g) :
    GoodState (g.check_game_over).2 := by
  constructor
  · intro bt
    rw [check_game_over_totalBird]
    exact hg.1 bt
  · intro k hk bt
    rw [check_game_over_players] at hk ⊢
    exact hg.2 k hk bt

end Birdgame

namespace Birdgame

theorem afterAskDraw_GoodState_aux (g g2 : BirdGame) (cur j : Nat)
    (hlen2 : g2.players.length = g.players.length)
    (htot2 : ∀ bt', totalBird g2 bt' ≤ 4)
    (hother : ∀ k, k ≠ cur → k ≠ j → k < g.players.length →
        g2.players.getD k default = g.players.getD k default)
    (hg : GoodState g) (hcur : cur < g.players.length)
    (hj : j < g.players.length) :
    GoodState
      (((g2.run_check_for_sets cur).2.run_check_for_sets j).2.next_turn) := by
  have hlen3 : ((g2.run_check_for_sets cur).2).players.length
      = g.players.length := by
    rw [run_check_players_length, hlen2]
  have hlen4 : (((g2.run_check_for_sets cur).2.run_check_for_sets j).2).players.length
      = g.players.length := by
    rw [run_check_players_length, hlen3]
  have htot3 : ∀ bt', totalBird ((g2.run_check_for_sets cur).2) bt' ≤ 4 := by
    intro bt'
    rw [run_check_totalBird]
    exact htot2 bt'
  have htot4 : ∀ bt',
      totalBird (((g2.run_check_for_sets cur).2.run_check_for_sets j).2) bt'
        ≤ 4 := by
    intro bt'
    rw [run_check_totalBird]
    exact htot3 bt'
  constructor
  · intro bt'
    rw [next_turn_totalBird]
    exact htot4 bt'
  · intro k hk bt'
    rw [next_turn_players] at hk ⊢
    rw [hlen4] at hk
    by_cases hkj : k = j
    · subst hkj
      rw [run_check_getD_self _ _ (by rw [hlen3]; exact hj)]
      refine check_count_le_three _ _ ?_ ?_
      · have hple := player_le_totalBird ((g2.run_check_for_sets cur).2) k bt'
          (by rw [hlen3]; exact hj)
        have ht := htot3 bt'
        omega
      · intro h4 hmem
        have hple := player_le_totalBird ((g2.run_check_for_sets cur).2) k bt'
          (by rw [hlen3]; exact hj)
        have ht := htot3 bt'
        have hcnt : ((g2.run_check_for_sets cur).2.players.getD
            k default).sets.count bt' ≠ 0 :=
          fun hz => (List.count_eq_zero.mp hz) hmem
        omega
    · rw [run_check_getD_other _ _ _ hkj]
      by_cases hkc : k = cur
      · subst hkc
        rw [run_check_getD_self _ _ (by rw [hlen2]; exact hcur)]
        refine check_count_le_three _ _ ?_ ?_
        · have hple := player_le_totalBird g2 k bt' (by rw [hlen2]; exact hcur)
          have ht := htot2 bt'
          omega
        · intro h4 hmem
          have hple := player_le_totalBird g2 k bt' (by rw [hlen2]; exact hcur)
          have ht := htot2 bt'
          have hcnt : (g2.players.getD k default).sets.count bt' ≠ 0 :=
            fun hz => (List.count_eq_zero.mp hz) hmem
          omega
      · rw [run_check_getD_other _ _ _ hkc, hother k hkc hkj hk]
        exact hg.2 k hk bt'

theorem turnAsk_GoodState (g : BirdGame) (j : Nat) (bt : String)
    (hg : GoodState g) (hj : j < g.players.length)
    (hbird : g.get_current_player.has_bird bt = true) :
    GoodState (g.turnAsk j bt) := by
  have hbird2 : (g.players.getD g.current_player_idx default).has_bird bt
      = true := hbird
  have hcur : g.current_player_idx < g.players.length :=
    has_bird_getD_lt _ _ _ hbird2
  unfold BirdGame.turnAsk
  dsimp only
  refine afterAskDraw_GoodState_aux g _ g.current_player_idx j ?_ ?_ ?_ hg hcur hj
  · split
    · rw [draw_players_length, ask_players_length]
    · rw [ask_players_length]
  · intro bt'
    split
    · rw [draw_totalBird _ _ _ (by rw [ask_players_length]; exact hcur),
        ask_totalBird]
      exact hg.1 bt'
    · rw [ask_totalBird]
      exact hg.1 bt'
  · intro k hkc hkj hklen
    split
    · rw [draw_players_getD_other _ _ _ hkc,
        ask_players_getD_other g g.current_player_idx j k bt hkc hkj]
    · rw [ask_players_getD_other g g.current_player_idx j k bt hkc hkj]

theorem reachable_GoodState (g : BirdGame) (h : Reachable g) : GoodState g := by
  induction h with
  | start names shuffled hperm => exact init_GoodState names shuffled hperm
  | skip g hr hempty ih => exact next_turn_GoodState g ih
  | turn g j bt hr hj hjc hbird ih => exact turnAsk_GoodState g j bt ih hj hbird
  | overCheck g hr ih => exact check_game_over_GoodState g ih

/-- C6: in every game state reachable through the engine's protocol (an
initial deal on a shuffle of the full deck, `check_for_sets` applied to each
player, then `play_game` turns that check both the asker and the target
after every ask and compensating draw), every player's hand holds at most 3
cards of any single bird type; consequently `ask_for_cards` never returns 4 —
it returns 0 on a rejected ask or miss, and a count between 1 and 3 on a
hit. -/
theorem C6_reachable_hand_bound (g : BirdGame) (hr : Reachable g) :
    (∀ p ∈ g.players, ∀ bt, countBird p.hand bt ≤ 3) ∧
    (∀ i j bt, (g.ask_for_cards i j bt).1 = 0 ∨
      (1 ≤ (g.ask_for_cards i j bt).1 ∧ (g.ask_for_cards i j bt).1 ≤ 3)) := by
  have hg := reachable_GoodState g hr
  constructor
  · intro p hp bt
    rcases mem_getD_index default hp with ⟨k, hk, rfl⟩
    exact hg.2 k hk bt
  · intro i j bt
    cases hb : (g.players.getD i default).has_bird bt
    · rw [ask_for_cards_no_bird g i j bt ((has_bird_false_iff _ _).mp hb)]
      exact Or.inl rfl
    · by_cases ht : countBird (g.players.getD j default).hand bt = 0
      · rw [ask_for_cards_target_zero g i j bt ht]
        exact Or.inl rfl
      · have hpos := Nat.pos_of_ne_zero ht
        have hjlt := countBird_getD_lt _ _ _ hpos
        have hfst : (g.ask_for_cards i j bt).1
            = countBird (g.players.getD j default).hand bt := by
          rw [ask_for_cards_hit_eq g i j bt hb hpos]
          unfold askHitResult
          dsimp only
          rw [remove_cards_of_type_fst]
          rfl
        rw [hfst]
        exact Or.inr ⟨hpos, hg.2 j hjlt bt⟩

/-- Witness for C6: the freshly constructed two-player game on the identity
shuffle is reachable, and an ask there returns 0 or a hit count of 1 to 3. -/
theorem C6_witness :
    ((BirdGame.init ["A", "B"] Deck.create.cards).ask_for_cards 0 1 "Robin").1
        = 0 ∨
    (1 ≤ ((BirdGame.init ["A", "B"] Deck.create.cards).ask_for_cards
        0 1 "Robin").1 ∧
     ((BirdGame.init ["A", "B"] Deck.create.cards).ask_for_cards
        0 1 "Robin").1 ≤ 3) :=
  (C6_reachable_hand_bound _
    (Reachable.start ["A", "B"] Deck.create.cards (List.Perm.refl _))).2
    0 1 "Robin"

end Birdgame
